import Mathlib

/-!
# Connection hand-off between a public listener and a worker dispatcher

Shallow embedding of `src/p1.cpp` (the public listener) and `src/p22.cpp`
(the worker dispatcher).

* C strings are lists of characters read up to the first NUL.
* `int` values are `Int`; the one narrowing conversion in the programs
  (`int workerpathlen = strlen(..)`) is written out with its wrap-around.
* Each process is a machine that is blocked in one system call at a time.
  The environment drives it with events: the return of the pending call, or
  the delivery of a signal.  Everything the program does between two blocking
  calls happens inside one step and is appended to the trace.
-/

namespace Handoff

/-! ## Platform constants -/

/-- Value of `errno` after a failed call; POSIX error numbers are positive. -/
structure Errno where
  val : Nat
  pos : 0 < val
deriving DecidableEq

def EINTR : Errno := ⟨4, by decide⟩
def EINVAL : Errno := ⟨22, by decide⟩
def EPIPE : Errno := ⟨32, by decide⟩
def EADDRINUSE : Errno := ⟨98, by decide⟩

def SIGHUP : Int := 1
def SIGINT : Int := 2
def SIGPIPE : Int := 13
def SIGTERM : Int := 15

def STDIN_FILENO : Int := 0
def STDOUT_FILENO : Int := 1
def STDERR_FILENO : Int := 2

/-- Unix domain socket path length (including NUL byte): `#define UNIX_PATH_LEN 108`. -/
def UNIX_PATH_LEN : Int := 108

/-- How many concurrent pending connections are allowed: `#define LISTEN_BACKLOG 32`. -/
def LISTEN_BACKLOG : Nat := 32

/-- Size of `struct cmsghdr` (Linux, LP64). -/
def sizeofCmsghdr : Nat := 16

/-- The macro `CMSG_LEN(len)` of `<sys/socket.h>` (Linux, LP64): the aligned header plus `len`. -/
def CMSG_LEN (len : Nat) : Nat := sizeofCmsghdr + len

/-- Value of `sizeof (int)`. -/
def sizeofInt : Nat := 4

/-- Return of a system call: a non-negative value, or `-1` with `errno` set. -/
inductive Ret where
  | ok (v : Nat)
  | err (e : Errno)
deriving DecidableEq

/-! ## C strings -/

/-- Memory behind a `char *`: the characters in order; reading past the list gives NUL. -/
abbrev CStr := List Char

def NUL : Char := Char.ofNat 0

/-- The expression `s[i]`. -/
def charAt (s : CStr) (i : Nat) : Char := s.getD i NUL

/-- The function `strlen`: number of characters before the first NUL. -/
def strlen (s : CStr) : Nat := (s.takeWhile (fun c => c != NUL)).length

/-- Conversion of a `size_t` to `int` (two's complement, 32 bits). -/
def toInt32 (n : Nat) : Int :=
  if n % 2 ^ 32 < 2 ^ 31 then ((n % 2 ^ 32 : Nat) : Int) else ((n % 2 ^ 32 : Nat) : Int) - 2 ^ 32

/-! ## Shutdown flag (both programs, lines 19-29) -/

/-- The handler `handle_done_signal`, as a function from the old value of `done` to the new one:
`if (!done) done = signum;`. -/
def handle_done_signal (done signum : Int) : Int :=
  if done = 0 then signum else done

/-- Delivery of a sequence of signals to the handler, oldest first. -/
def deliverSignals (done : Int) (sigs : List Int) : Int :=
  sigs.foldl handle_done_signal done

/-! ## `wildcard` (p1.cpp, lines 46-65) -/

/-- The function `wildcard`; `none` is the NULL pointer. -/
def wildcard (address : Option CStr) : Option CStr :=
  match address with
  | none => none
  | some a =>
    if charAt a 0 = NUL then none
    else if charAt a 0 = '-' ∨ charAt a 0 = '?' ∨ charAt a 0 = '*' ∨ charAt a 0 = ':' then none
    else some a

/-! ## System-call log and events -/

/-- The control message built at p1.cpp lines 217-243. -/
structure ControlMessage where
  /-- regular payload: `conndata`, `iov_len` bytes of it -/
  iov : List Nat
  cmsg_level : Nat
  cmsg_type : Nat
  cmsg_len : Nat
  /-- the `int` copied to `CMSG_DATA` -/
  fd : Int
  msg_controllen : Nat
deriving DecidableEq

/-- What a successful `recvmsg` left in `msghdr`, `data` and `ancillary` (p22.cpp line 178). -/
structure RecvMsg where
  /-- number of regular bytes received -/
  received : Nat
  msg_controllen : Nat
  /-- field `cmsg_len` of the header at the start of `ancillary` -/
  cmsg_len : Nat
  /-- the `int` at `CMSG_DATA` -/
  fd : Int
deriving DecidableEq

/-- One entry of the log a process leaves: a system call with its return, a line printed,
or a reading of `done` in a loop condition. -/
inductive Act where
  | print (text : String)
  /-- a line printed with one value substituted (an `errno`, a return code, a descriptor) -/
  | printWith (text : String) (arg : Int)
  | sigaction (signum : Int) (r : Ret)
  | socketUnix (r : Ret)
  | connect (fd : Int) (path : CStr) (r : Ret)
  | bindUnix (fd : Int) (path : CStr) (r : Ret)
  | getaddrinfo (node : Option CStr) (service : CStr) (code : Int)
  | socket (r : Ret)
  | bind (fd : Int) (r : Ret)
  | listen (fd : Int) (backlog : Nat) (r : Ret)
  | freeaddrinfo
  /-- a loop condition was evaluated and read this value of `done` -/
  | check (done : Int)
  | callAccept (fd : Int)
  | accept (fd : Int) (r : Ret)
  | sendmsg (fd : Int) (msg : ControlMessage) (r : Ret)
  | callRecvmsg (fd : Int)
  | recvmsg (fd : Int) (r : Ret)
  | recvd (fd : Int) (m : RecvMsg)
  | callFork (clientfd : Int)
  | fork (clientfd : Int) (r : Ret)
  /-- the call `close(fd)` where the program ignores the return; the descriptor is taken to be
  released -/
  | close (fd : Int)
  /-- the call `close(fd)` where the program inspects the return -/
  | closeChecked (fd : Int) (r : Ret)
  | dup2 (fromfd tofd : Int) (r : Ret)
  | execvp (file : Option CStr) (args : List CStr) (failure : Option Errno)
deriving DecidableEq

/-- What the environment does to a process blocked in a system call. -/
inductive Event where
  /-- a signal is delivered; the handler runs -/
  | signal (signum : Int)
  /-- the pending call returns -/
  | ret (r : Ret)
  /-- the pending `recvmsg` returns successfully with this content -/
  | recvd (m : RecvMsg)
deriving DecidableEq

def SOL_SOCKET : Nat := 1
def SCM_RIGHTS : Nat := 1

/-- The text printed by the `switch (done)` before `return 0` (both programs). -/
def shutdownText (done : Int) : String :=
  if done = SIGTERM then "Terminated."
  else if done = SIGPIPE then "Lost connection."
  else if done = SIGHUP then "Hanging up."
  else if done = SIGINT then "Interrupted; exiting."
  else "Exiting."

/-- The function `set_done_signal`: `errno` if `sigaction` fails, else 0. -/
def set_done_signal (sigaction : Int → Ret) (signum : Int) : Int :=
  match sigaction signum with
  | .err e => (e.val : Int)
  | .ok _ => 0

/-- The condition `set_done_signal(SIGINT) || set_done_signal(SIGHUP) || ..` over the given
signals, with the calls made; `true` when one installation failed. -/
def installHandlers (sigaction : Int → Ret) : List Int → Bool × List Act
  | [] => (false, [])
  | s :: rest =>
    if set_done_signal sigaction s ≠ 0 then (true, [Act.sigaction s (sigaction s)])
    else
      let (b, tr) := installHandlers sigaction rest
      (b, Act.sigaction s (sigaction s) :: tr)

/-! ## Public listener (p1.cpp) -/

namespace Listener

/-- One entry of the chain returned by `getaddrinfo`, with what the kernel answers on it. -/
structure Candidate where
  /-- return of `socket(curr->ai_family, curr->ai_socktype, curr->ai_protocol)` -/
  socket : Ret
  /-- return of `bind(listenfd, curr->ai_addr, curr->ai_addrlen)` -/
  bind : Ret
deriving DecidableEq

/-- Answers of the environment during start-up. -/
structure SetupEnv where
  sigaction : Int → Ret
  /-- return of `socket(AF_UNIX, SOCK_STREAM, 0)` -/
  socket : Ret
  connect : Ret
  /-- return code and chain of `getaddrinfo(node, service, ..)` -/
  getaddrinfo : Option CStr → CStr → Int × List Candidate
  listen : Ret
  /-- signals delivered after the handlers are installed and before the first loop condition -/
  signals : List Int

/-- The validation of `argv[3]` (lines 115-123): `none` when it passes, else the line printed
before `return 1`. -/
def checkWorkerPath (path : CStr) : Option Act :=
  let workerpathlen : Int := toInt32 (strlen path)
  if workerpathlen < 1 then
    some (Act.print "Worker Unix domain socket path cannot be empty.")
  else if workerpathlen ≥ UNIX_PATH_LEN then
    some (Act.print "%s: Worker Unix domain socket path is too long.")
  else none

/-- The loop of lines 157-175 over the chain: returns `listenfd`, `failure` and the calls made. -/
def bindLoop : List Candidate → Int → Int → Int × Int × List Act
  | [], listenfd, failure => (listenfd, failure, [])
  | curr :: next, _, failure =>
    match curr.socket with
    | .err e =>
      -- listenfd == -1: continue
      let (l, f, tr) := bindLoop next (-1) failure
      (l, f, Act.socket (.err e) :: tr)
    | .ok fd =>
      match curr.bind with
      | .err e =>
        let failure1 : Int := if failure = 0 then (e.val : Int) else failure
        let (l, f, tr) := bindLoop next (-1) failure1
        (l, f, Act.socket (.ok fd) :: Act.bind fd (.err e) :: Act.close fd :: tr)
      | .ok v =>
        -- bound successfully: break
        ((fd : Int), failure, [Act.socket (.ok fd), Act.bind fd (.ok v)])

/-- Lines 157-175 with their initialisation `listenfd = -1; failure = EINVAL;`. -/
def bindPhase (list : List Candidate) : Int × Int × List Act :=
  bindLoop list (-1) (EINVAL.val : Int)

/-- Program point of the listener: the system call it is blocked in. -/
inductive Pc where
  | accept
  | sendmsg (connfd : Int)
  /-- the `close(connfd)` of lines 270-272 -/
  | closeConn (connfd : Int)
  | exited (code : Int)
deriving DecidableEq

/-- The listener inside `main`: where it is, the flag `done`, its descriptors, its log. -/
structure State where
  pc : Pc
  done : Int
  listenfd : Int
  workerfd : Int
  /-- descriptors returned by `accept` that are open in this process -/
  conns : List Int
  trace : List Act
deriving DecidableEq

def State.log (s : State) (acts : List Act) : State :=
  { s with trace := s.trace ++ acts }

/-- Lines 217-243: the message that carries `connfd`. -/
def controlMessage (connfd : Int) : ControlMessage :=
  { iov := [0]
    cmsg_level := SOL_SOCKET
    cmsg_type := SCM_RIGHTS
    cmsg_len := CMSG_LEN sizeofInt
    fd := connfd
    msg_controllen := CMSG_LEN sizeofInt }

/-- Lines 280-306: close both sockets, print the cause, `return 0`. -/
def shutdown (s : State) : State :=
  { s with
    pc := .exited 0
    trace := s.trace ++
      [Act.close s.listenfd, Act.close s.workerfd, Act.print (shutdownText s.done)] }

/-- The condition `while (!done)` of line 198 and, when it holds, the call of `accept`. -/
def loopHead (s : State) : State :=
  if s.done ≠ 0 then shutdown (s.log [Act.check s.done])
  else { s with pc := .accept, trace := s.trace ++ [Act.check s.done, Act.callAccept s.listenfd] }

/-- One step of the loop of lines 198-278: the pending call returns, or a signal arrives. -/
def step (s : State) (ev : Event) : State :=
  match s.pc with
  | .exited _ => s
  | .accept =>
    match ev with
    | .signal n => { s with done := handle_done_signal s.done n }
    | .recvd _ => s
    | .ret (.err e) =>
      if e = EINTR then loopHead (s.log [Act.accept s.listenfd (.err e)])
      else loopHead (s.log [Act.accept s.listenfd (.err e),
        Act.printWith "Failed to accept a connection: %s" e.val])
    | .ret (.ok fd) =>
      { s with
        pc := .sendmsg fd
        conns := (fd : Int) :: s.conns
        trace := s.trace ++ [Act.accept s.listenfd (.ok fd)] }
  | .sendmsg connfd =>
    match ev with
    | .signal n => { s with done := handle_done_signal s.done n }
    | .recvd _ => s
    | .ret (.err e) =>
      if e = EINTR then
        -- do .. while (written == -1 && errno == EINTR)
        s.log [Act.sendmsg s.workerfd (controlMessage connfd) (.err e)]
      else
        let done1 : Int :=
          if s.done = 0 then (if e = EPIPE then SIGPIPE else -1) else s.done
        shutdown
          { s with
            done := done1
            conns := s.conns.erase connfd
            trace := s.trace ++
              [Act.sendmsg s.workerfd (controlMessage connfd) (.err e),
               Act.printWith "Cannot pass connection to worker: %s." e.val,
               Act.close connfd] }
    | .ret (.ok n) =>
      { s with
        pc := .closeConn connfd
        trace := s.trace ++ [Act.sendmsg s.workerfd (controlMessage connfd) (.ok n)] }
  | .closeConn connfd =>
    match ev with
    | .signal n => { s with done := handle_done_signal s.done n }
    | .recvd _ => s
    | .ret (.err e) =>
      if e = EINTR then
        -- do .. while (result == -1 && errno == EINTR)
        s.log [Act.closeChecked connfd (.err e)]
      else
        loopHead (s.log [Act.closeChecked connfd (.err e),
          Act.printWith "Error closing leftover connection descriptor: %s." e.val,
          Act.print "Connection transferred to the worker process."])
    | .ret (.ok v) =>
      loopHead
        { s with
          conns := s.conns.erase connfd
          trace := s.trace ++ [Act.closeChecked connfd (.ok v),
            Act.print "Connection transferred to the worker process."] }

/-- The listener driven by a sequence of events. -/
def run (s : State) (evs : List Event) : State :=
  evs.foldl step s

/-- A process that stops before the loop. -/
def stopped (code : Int) (trace : List Act) : State :=
  { pc := .exited code, done := 0, listenfd := -1, workerfd := -1, conns := [], trace := trace }

/-- The state in which the loop of line 198 is entered. -/
def enterLoop (listenfd workerfd : Int) (done : Int) (trace : List Act) : State :=
  loopHead
    { pc := .accept, done := done, listenfd := listenfd, workerfd := workerfd, conns := [],
      trace := trace }

/-- Lines 90-196 of `main`: everything before the loop. -/
def start (argv : List CStr) (env : SetupEnv) : State :=
  if argv.length ≠ 4 then
    stopped (if argv.length = 1 then 0 else 1) [Act.print "Usage: %s ADDRESS PORT WORKER"]
  else
    let (failed, tr0) := installHandlers env.sigaction [SIGINT, SIGHUP, SIGPIPE, SIGTERM]
    if failed then stopped 1 (tr0 ++ [Act.print "Error: Cannot install signal handlers."])
    else
      let path := argv.getD 3 []
      match checkWorkerPath path with
      | some line => stopped 1 (tr0 ++ [line])
      | none =>
        match env.socket with
        | .err e =>
          stopped 1 (tr0 ++ [Act.socketUnix (.err e),
            Act.printWith "Cannot create an Unix domain socket: %s." e.val])
        | .ok workerfd =>
          let tr1 := tr0 ++ [Act.socketUnix (.ok workerfd)]
          match env.connect with
          | .err e =>
            stopped 1 (tr1 ++ [Act.connect workerfd path (.err e),
              Act.printWith "Cannot connect to %s: %s." e.val, Act.close workerfd])
          | .ok c =>
            let tr2 := tr1 ++ [Act.connect workerfd path (.ok c)]
            let node := wildcard (argv.get? 1)
            let service := argv.getD 2 []
            let (result, list) := env.getaddrinfo node service
            let tr3 := tr2 ++ [Act.getaddrinfo node service result]
            if result ≠ 0 then
              stopped 1 (tr3 ++ [Act.printWith "%s %s: %s." result, Act.close workerfd])
            else
              let (listenfd, failure, trb) := bindPhase list
              let tr4 := tr3 ++ trb ++ [Act.freeaddrinfo]
              if listenfd = -1 then
                stopped 1 (tr4 ++ [Act.printWith "Cannot bind to %s port %s: %s." failure,
                  Act.close workerfd])
              else
                match env.listen with
                | .err e =>
                  stopped 1 (tr4 ++ [Act.listen listenfd LISTEN_BACKLOG (.err e),
                    Act.printWith "Cannot listen for incoming connections to %s port %s: %s."
                      e.val,
                    Act.close listenfd, Act.close workerfd])
                | .ok l =>
                  enterLoop listenfd workerfd (deliverSignals 0 env.signals)
                    (tr4 ++ [Act.listen listenfd LISTEN_BACKLOG (.ok l),
                      Act.print "Now waiting for incoming connections to %s port %s"])

/-- The whole of `main`: start-up, then the loop driven by the events. -/
def main (argv : List CStr) (env : SetupEnv) (evs : List Event) : State :=
  run (start argv env) evs

end Listener

/-! ## Worker dispatcher (p22.cpp) -/

namespace Dispatcher

/-- Answers of the environment during start-up. -/
structure SetupEnv where
  sigaction : Int → Ret
  /-- return of `socket(AF_UNIX, SOCK_STREAM, 0)` -/
  socket : Ret
  bind : Ret
  listen : Ret
  /-- signals delivered after the handlers are installed and before the first loop condition -/
  signals : List Int

/-- The validation of `argv[1]` (lines 109-117): `none` when it passes, else the line printed
before `return 1`. -/
def checkWorkerPath (path : CStr) : Option Act :=
  let workerpathlen : Int := toInt32 (strlen path)
  if workerpathlen < 1 then
    some (Act.print "Worker Unix domain socket path cannot be empty.")
  else if workerpathlen ≥ UNIX_PATH_LEN then
    some (Act.print "%s: Worker Unix domain socket path is too long.")
  else none

/-- The macro `CMSG_FIRSTHDR` applied to the received header: the first control header (here its
`cmsg_len`), or `none` (NULL) when the ancillary section is too short to hold one. -/
def CMSG_FIRSTHDR (m : RecvMsg) : Option Nat :=
  if m.msg_controllen ≥ sizeofCmsghdr then some m.cmsg_len else none

/-- Program point of the dispatcher: the system call it is blocked in. -/
inductive Pc where
  | accept
  | recvmsg (serverfd : Int)
  | fork (serverfd clientfd : Int)
  /-- `fork` returned 0: this process is the handler child (lines 209-228) -/
  | child (serverfd clientfd : Int)
  | exited (code : Int)
deriving DecidableEq

/-- The dispatcher inside `main`: where it is, the flag `done`, its listening socket, its
log. -/
structure State where
  pc : Pc
  done : Int
  workerfd : Int
  trace : List Act
deriving DecidableEq

def State.log (s : State) (acts : List Act) : State :=
  { s with trace := s.trace ++ acts }

/-- Lines 242-266: close the listening socket, print the cause, `return 0`. -/
def shutdown (s : State) : State :=
  { s with
    pc := .exited 0
    trace := s.trace ++ [Act.close s.workerfd, Act.print (shutdownText s.done)] }

/-- The condition `while (!done)` of line 141 and, when it holds, the call of `accept`. -/
def outerHead (s : State) : State :=
  if s.done ≠ 0 then shutdown (s.log [Act.check s.done])
  else { s with pc := .accept, trace := s.trace ++ [Act.check s.done, Act.callAccept s.workerfd] }

/-- Lines 236-240, reached when the inner loop ends: close the control connection and go back
to the outer loop. -/
def afterInner (s : State) (serverfd : Int) : State :=
  outerHead (s.log [Act.close serverfd, Act.print "Closed connection to server."])

/-- The condition `while (!done && serverfd != -1)` of line 157 and, when it holds, the call of
`recvmsg`. -/
def innerHead (s : State) (serverfd : Int) : State :=
  if s.done = 0 ∧ serverfd ≠ -1 then
    { s with
      pc := .recvmsg serverfd
      trace := s.trace ++ [Act.check s.done, Act.callRecvmsg serverfd] }
  else afterInner (s.log [Act.check s.done]) serverfd

/-- One step of the loops of lines 141-240: the pending call returns, or a signal arrives. -/
def step (s : State) (ev : Event) : State :=
  match s.pc with
  | .exited _ => s
  | .child _ _ => s
  | .accept =>
    match ev with
    | .signal n => { s with done := handle_done_signal s.done n }
    | .recvd _ => s
    | .ret (.err e) =>
      if e = EINTR then outerHead (s.log [Act.accept s.workerfd (.err e)])
      else outerHead (s.log [Act.accept s.workerfd (.err e),
        Act.printWith "Failed to accept a connection from the server: %s." e.val])
    | .ret (.ok fd) =>
      innerHead (s.log [Act.accept s.workerfd (.ok fd), Act.print "Connection from the server."])
        (fd : Int)
  | .recvmsg serverfd =>
    match ev with
    | .signal n => { s with done := handle_done_signal s.done n }
    | .ret (.ok _) => s  -- a successful return of recvmsg is the event recvd
    | .ret (.err e) =>
      if e = EINTR then
        -- continue
        innerHead (s.log [Act.recvmsg serverfd (.err e)]) serverfd
      else
        -- break
        afterInner (s.log [Act.recvmsg serverfd (.err e),
          Act.printWith "Error receiving a message from server: %s." e.val]) serverfd
    | .recvd m =>
      match CMSG_FIRSTHDR m with
      | none =>
        afterInner (s.log [Act.recvd serverfd m,
          Act.print "Received a bad message from server."]) serverfd
      | some len =>
        if len ≠ CMSG_LEN sizeofInt then
          afterInner (s.log [Act.recvd serverfd m,
            Act.print "Received a bad message from server."]) serverfd
        else
          { s with
            pc := .fork serverfd m.fd
            trace := s.trace ++ [Act.recvd serverfd m,
              Act.printWith "Executing command with descriptor %d: " m.fd,
              Act.callFork m.fd] }
  | .fork serverfd clientfd =>
    match ev with
    | .signal n => { s with done := handle_done_signal s.done n }
    | .recvd _ => s
    | .ret (.err e) =>
      afterInner (s.log [Act.fork clientfd (.err e), Act.printWith "Fork failed: %s." e.val,
        Act.close clientfd]) serverfd
    | .ret (.ok 0) =>
      { s with pc := .child serverfd clientfd, trace := s.trace ++ [Act.fork clientfd (.ok 0)] }
    | .ret (.ok (pid + 1)) =>
      innerHead (s.log [Act.fork clientfd (.ok (pid + 1)), Act.print "Done.",
        Act.close clientfd]) serverfd

/-- The dispatcher driven by a sequence of events. -/
def run (s : State) (evs : List Event) : State :=
  evs.foldl step s

/-- A process that stops before the loop. -/
def stopped (code : Int) (trace : List Act) : State :=
  { pc := .exited code, done := 0, workerfd := -1, trace := trace }

/-- The state in which the loop of line 141 is entered. -/
def enterLoop (workerfd : Int) (done : Int) (trace : List Act) : State :=
  outerHead { pc := .accept, done := done, workerfd := workerfd, trace := trace }

/-- Lines 83-139 of `main`: everything before the loop. -/
def start (argv : List CStr) (env : SetupEnv) : State :=
  if argv.length < 3 then
    stopped (if argv.length = 1 then 0 else 1) [Act.print "Usage: %s WORKER COMMAND [ ARGS .. ]"]
  else
    let (failed, tr0) := installHandlers env.sigaction [SIGINT, SIGHUP, SIGPIPE, SIGTERM]
    if failed then stopped 1 (tr0 ++ [Act.print "Error: Cannot install signal handlers."])
    else
      let path := argv.getD 1 []
      match checkWorkerPath path with
      | some line => stopped 1 (tr0 ++ [line])
      | none =>
        match env.socket with
        | .err e =>
          stopped 1 (tr0 ++ [Act.socketUnix (.err e),
            Act.printWith "Cannot create an Unix domain socket: %s." e.val])
        | .ok workerfd =>
          let tr1 := tr0 ++ [Act.socketUnix (.ok workerfd)]
          match env.bind with
          | .err e =>
            stopped 1 (tr1 ++ [Act.bindUnix workerfd path (.err e),
              Act.printWith "%s: %s." e.val, Act.close workerfd])
          | .ok b =>
            let tr2 := tr1 ++ [Act.bindUnix workerfd path (.ok b)]
            match env.listen with
            | .err e =>
              stopped 1 (tr2 ++ [Act.listen workerfd LISTEN_BACKLOG (.err e),
                Act.printWith "%s: Cannot listen for messages: %s." e.val,
                Act.close workerfd])
            | .ok l =>
              enterLoop workerfd (deliverSignals 0 env.signals)
                (tr2 ++ [Act.listen workerfd LISTEN_BACKLOG (.ok l),
                  Act.print "Listening for descriptors on %s."])

/-- The whole of `main` in the parent: start-up, then the loops driven by the events. -/
def main (argv : List CStr) (env : SetupEnv) (evs : List Event) : State :=
  run (start argv env) evs

/-! ### The handler child (lines 46-66 and 209-228) -/

/-- How the handler child ends. -/
inductive ChildEnd where
  /-- `return code` from `main` -/
  | exit (code : Int)
  /-- `execvp` replaced the program image: the command runs -/
  | replaced
deriving DecidableEq

/-- Answers of the environment in the handler child. -/
structure ChildEnv where
  /-- successive returns of `dup2(clientfd, tofd)`, per `tofd` -/
  dup2 : Int → List Ret
  /-- `none` when `execvp` replaces the image, else its `errno` -/
  execvp : Option Errno

/-- The loop `do result = dup2(fromfd, tofd); while (result == -1 && errno == EINTR);`:
the last return and the calls made, or `none` while no call has returned anything else
than EINTR. -/
def dup2Loop (fromfd tofd : Int) : List Ret → Option (Ret × List Act)
  | [] => none
  | r :: rest =>
    if r = .err EINTR then
      match dup2Loop fromfd tofd rest with
      | none => none
      | some (last, acts) => some (last, Act.dup2 fromfd tofd r :: acts)
    else some (r, [Act.dup2 fromfd tofd r])

/-- The function `copy_fd`: its return value and the calls made. -/
def copy_fd (fromfd tofd : Int) (rets : List Ret) : Option (Int × List Act) :=
  if fromfd = tofd then some (0, [])
  else if fromfd = -1 ∨ tofd = -1 then some ((EINVAL.val : Int), [])
  else
    match dup2Loop fromfd tofd rets with
    | none => none
    | some (.err e, acts) => some ((e.val : Int), acts)
    | some (.ok _, acts) => some (0, acts)

/-- Lines 209-228: the child branch after `fork`. -/
def handlerChild (argv : List CStr) (workerfd serverfd clientfd : Int) (env : ChildEnv) :
    Option (ChildEnd × List Act) :=
  let tr0 := [Act.close workerfd, Act.close serverfd]
  match copy_fd clientfd STDIN_FILENO (env.dup2 STDIN_FILENO) with
  | none => none
  | some (c0, a0) =>
    if c0 ≠ 0 then some (.exit 126, tr0 ++ a0)
    else
      match copy_fd clientfd STDOUT_FILENO (env.dup2 STDOUT_FILENO) with
      | none => none
      | some (c1, a1) =>
        if c1 ≠ 0 then some (.exit 126, tr0 ++ a0 ++ a1)
        else
          match copy_fd clientfd STDERR_FILENO (env.dup2 STDERR_FILENO) with
          | none => none
          | some (c2, a2) =>
            if c2 ≠ 0 then some (.exit 126, tr0 ++ a0 ++ a1 ++ a2)
            else
              let tr1 := tr0 ++ a0 ++ a1 ++ a2 ++
                (if clientfd ≠ STDIN_FILENO ∧ clientfd ≠ STDOUT_FILENO ∧
                    clientfd ≠ STDERR_FILENO then [Act.close clientfd] else [])
              let tr2 := tr1 ++ [Act.execvp (argv.get? 2) (argv.drop 2) env.execvp]
              match env.execvp with
              | none => some (.replaced, tr2)
              | some _ => some (.exit 127, tr2)

/-- What becomes of a process in which `fork` returned 0: the child branch run on the
descriptors of that state. -/
def childOutcome (argv : List CStr) (s : State) (env : ChildEnv) :
    Option (ChildEnd × List Act) :=
  match s.pc with
  | .child serverfd clientfd => handlerChild argv s.workerfd serverfd clientfd env
  | _ => none

end Dispatcher

/-! ## Observations on a log -/

/-- Descriptors returned by `accept`, oldest first. -/
def acceptedFds (tr : List Act) : List Int :=
  tr.filterMap fun a => match a with
    | .accept _ (.ok fd) => some (fd : Int)
    | _ => none

/-- Messages whose `sendmsg` returned successfully, oldest first. -/
def sentMsgs (tr : List Act) : List ControlMessage :=
  tr.filterMap fun a => match a with
    | .sendmsg _ m (.ok _) => some m
    | _ => none

/-- Descriptors passed to `close`, one entry per call, oldest first. -/
def closedFds (tr : List Act) : List Int :=
  tr.filterMap fun a => match a with
    | .close fd => some fd
    | .closeChecked fd _ => some fd
    | _ => none

/-- Contents of the successful `recvmsg` returns, oldest first. -/
def recvdMsgs (tr : List Act) : List RecvMsg :=
  tr.filterMap fun a => match a with
    | .recvd _ m => some m
    | _ => none

/-- Descriptors for which `fork` returned a child pid to the parent, oldest first. -/
def forkedFds (tr : List Act) : List Int :=
  tr.filterMap fun a => match a with
    | .fork fd (.ok (_ + 1)) => some fd
    | _ => none

/-- Descriptors for which `fork` was called, oldest first. -/
def forkCalls (tr : List Act) : List Int :=
  tr.filterMap fun a => match a with
    | .callFork fd => some fd
    | _ => none

/-- A call of `accept`, `recvmsg` or `fork` is started. -/
def Act.startsWork : Act → Bool
  | .callAccept _ => true
  | .callRecvmsg _ => true
  | .callFork _ => true
  | _ => false

/-- The call creates a socket. -/
def Act.createsSocket : Act → Bool
  | .socketUnix _ => true
  | .socket _ => true
  | _ => false

/-- A loop condition is evaluated. -/
def Act.isCheck : Act → Bool
  | .check _ => true
  | _ => false

/-- Targets of the `dup2` calls that succeeded, oldest first. -/
def reboundTo (tr : List Act) : List Int :=
  tr.filterMap fun a => match a with
    | .dup2 _ tofd (.ok _) => some tofd
    | _ => none

/-- A condition holds at every step of a run. -/
def along {σ ε : Type} (step : σ → ε → σ) (ok : σ → ε → Bool) : σ → List ε → Bool
  | _, [] => true
  | s, e :: es => ok s e && along step ok (step s e) es

/-! ## The two processes joined by the control channel -/

namespace System

/-- What happens next in the system of the two processes. -/
inductive SysEvent where
  /-- an event of the listener process -/
  | listener (e : Event)
  /-- a signal or a return (other than a successful `recvmsg`) in the dispatcher process -/
  | dispatcher (e : Event)
  /-- the dispatcher's pending `recvmsg` returns the oldest message of the channel -/
  | deliver
deriving DecidableEq

/-- The listener, the control channel and the dispatcher. -/
structure Sys where
  lis : Listener.State
  /-- messages sent and not yet received, oldest first -/
  chan : List ControlMessage
  dis : Dispatcher.State
deriving DecidableEq

/-- What the kernel hands to the receiver for a message: the payload, the ancillary section,
and the descriptor under the number `kappa fd` it has in the receiving process. -/
def transfer (kappa : Int → Int) (m : ControlMessage) : RecvMsg :=
  { received := m.iov.length
    msg_controllen := m.msg_controllen
    cmsg_len := m.cmsg_len
    fd := kappa m.fd }

/-- One step of the system: one of the processes steps; what the listener has newly sent is
appended to the channel, and what the dispatcher receives is taken from its front. -/
def step (kappa : Int → Int) (S : Sys) : SysEvent → Sys
  | .listener e =>
    let lis1 := Listener.step S.lis e
    { S with
      lis := lis1
      chan := S.chan ++ (sentMsgs lis1.trace).drop (sentMsgs S.lis.trace).length }
  | .dispatcher (.recvd _) => S
  | .dispatcher e => { S with dis := Dispatcher.step S.dis e }
  | .deliver =>
    match S.chan, S.dis.pc with
    | m :: rest, .recvmsg _ =>
      { S with chan := rest, dis := Dispatcher.step S.dis (.recvd (transfer kappa m)) }
    | _, _ => S

/-- The system driven by a sequence of events. -/
def run (kappa : Int → Int) (S : Sys) (evs : List SysEvent) : Sys :=
  evs.foldl (step kappa) S

/-- Both processes at the head of their loops, nothing logged, nothing in the channel. -/
def init (listenfd workerfd dispatcherfd : Int) : Sys :=
  { lis := Listener.enterLoop listenfd workerfd 0 []
    chan := []
    dis := Dispatcher.enterLoop dispatcherfd 0 [] }

/-- A step of the listener in which no shutdown is signalled and `sendmsg` does not fail
(a call interrupted and retried is not a failure). -/
def healthyListener (s : Listener.State) : Event → Bool
  | .signal _ => false
  | .ret (.err e) =>
    match s.pc with
    | .sendmsg _ => e == EINTR
    | _ => true
  | _ => true

/-- A step of the dispatcher in which no shutdown is signalled and neither `recvmsg` nor
`fork` fails (a call interrupted and retried is not a failure), seen from the parent. -/
def healthyDispatcher (s : Dispatcher.State) : Event → Bool
  | .signal _ => false
  | .ret r =>
    match s.pc, r with
    | .recvmsg _, .err e => e == EINTR
    | .fork _ _, .ok (_ + 1) => true
    | .fork _ _, _ => false
    | _, _ => true
  | .recvd _ => true

/-- The step is one in which no shutdown is signalled and no `sendmsg`, `recvmsg` or `fork`
fails. -/
def healthyStep (S : Sys) : SysEvent → Bool
  | .listener e => healthyListener S.lis e
  | .dispatcher e => healthyDispatcher S.dis e
  | .deliver => true

/-- The descriptor whose hand-off is in flight in the listener. -/
def pendingSend : Listener.Pc → List Int
  | .sendmsg fd => [fd]
  | _ => []

/-- The descriptor whose `fork` is in flight in the dispatcher. -/
def pendingFork : Dispatcher.Pc → List Int
  | .fork _ fd => [fd]
  | _ => []

/-- Nothing is in flight: no `sendmsg` pending, the channel empty, no `fork` pending. -/
def quiescent (S : Sys) : Prop :=
  pendingSend S.lis.pc = [] ∧ S.chan = [] ∧ pendingFork S.dis.pc = []

/-- The messages a step of the listener puts on the channel. -/
def emitted (s : Listener.State) (ev : Event) : List ControlMessage :=
  match s.pc, ev with
  | .sendmsg connfd, .ret (.ok _) => [Listener.controlMessage connfd]
  | _, _ => []

/-- The system after a run from its initial state. -/
def outcome (kappa : Int → Int) (listenfd workerfd dispatcherfd : Int)
    (evs : List SysEvent) : Sys :=
  run kappa (init listenfd workerfd dispatcherfd) evs

/-- One connection handed off from end to end: accepted, sent, closed by the listener,
received and forked for by the dispatcher. -/
def round (fd pid : Nat) : List SysEvent :=
  [.listener (.ret (.ok fd)), .listener (.ret (.ok 1)), .listener (.ret (.ok 0)), .deliver,
   .dispatcher (.ret (.ok (pid + 1)))]

/-- One round per descriptor, in order. -/
def rounds : List Nat → List SysEvent
  | [] => []
  | fd :: rest => round fd fd ++ rounds rest

/-- The dispatcher accepts the control connection, then the descriptors are handed off one
after the other. -/
def schedule (serverfd : Nat) (fds : List Nat) : List SysEvent :=
  .dispatcher (.ret (.ok serverfd)) :: rounds fds

/-- Both processes are running, the listener about to accept, the dispatcher receiving on the
control connection, nothing in flight. -/
def Idle (serverfd : Nat) (S : Sys) : Prop :=
  S.lis.pc = .accept ∧ S.lis.done = 0 ∧ S.dis.pc = .recvmsg (serverfd : Int) ∧ S.dis.done = 0 ∧
    S.chan = []

/-- Accounting of the hand-offs: every accepted descriptor has been sent or is being sent;
every message sent carries one descriptor and has been received or is in the channel;
every message received has been forked for or is being forked for. -/
def Accounted (kappa : Int → Int) (S : Sys) : Prop :=
  acceptedFds S.lis.trace = (sentMsgs S.lis.trace).map (fun m => m.fd) ++ pendingSend S.lis.pc ∧
  (∀ m ∈ sentMsgs S.lis.trace, m = Listener.controlMessage m.fd) ∧
  (sentMsgs S.lis.trace).map (transfer kappa) =
    recvdMsgs S.dis.trace ++ S.chan.map (transfer kappa) ∧
  (∀ m ∈ S.chan, m = Listener.controlMessage m.fd) ∧
  (recvdMsgs S.dis.trace).map (fun m => m.fd) = forkedFds S.dis.trace ++ pendingFork S.dis.pc

end System

/-! ## Sample inputs and invariants used below -/

/-- A command line of the listener: `listener 127.0.0.1 9000 /tmp/c`. -/
def Listener.sampleArgv : List CStr :=
  [['l', 'i', 's', 't', 'e', 'n', 'e', 'r'], ['1', '2', '7', '.', '0', '.', '0', '.', '1'],
   ['9', '0', '0', '0'], ['/', 't', 'm', 'p', '/', 'c']]

/-- An environment in which start-up succeeds up to the resolver, which returns `list`. -/
def Listener.sampleEnv (list : List Listener.Candidate) : Listener.SetupEnv :=
  { sigaction := fun _ => .ok 0
    socket := .ok 3
    connect := .ok 0
    getaddrinfo := fun _ _ => (0, list)
    listen := .ok 0
    signals := [] }

/-- A command line of the dispatcher: `dispatcher /tmp/c cat`. -/
def Dispatcher.sampleArgv : List CStr :=
  [['d', 'i', 's', 'p', 'a', 't', 'c', 'h', 'e', 'r'], ['/', 't', 'm', 'p', '/', 'c'],
   ['c', 'a', 't']]

/-- An environment in which the start-up of the dispatcher succeeds. -/
def Dispatcher.sampleEnv : Dispatcher.SetupEnv :=
  { sigaction := fun _ => .ok 0
    socket := .ok 3
    bind := .ok 0
    listen := .ok 0
    signals := [] }

/-- The step is not a failing return of the `close` of lines 270-272. -/
def Listener.closeSucceeds (s : Listener.State) (ev : Event) : Bool :=
  match s.pc, ev with
  | .closeConn _, .ret (.err _) => false
  | _, _ => true

/-- Descriptor bookkeeping of the listener: what is held and what has been closed, at each
program point. -/
def Listener.Balanced (listenfd workerfd : Int) (s : Listener.State) : Prop :=
  s.listenfd = listenfd ∧ s.workerfd = workerfd ∧
  match s.pc with
  | .accept => s.conns = [] ∧ closedFds s.trace = acceptedFds s.trace
  | .sendmsg fd => s.conns = [fd] ∧ closedFds s.trace ++ [fd] = acceptedFds s.trace
  | .closeConn fd => s.conns = [fd] ∧ closedFds s.trace ++ [fd] = acceptedFds s.trace
  | .exited _ => s.conns = [] ∧ closedFds s.trace = acceptedFds s.trace ++ [listenfd, workerfd]

/-- The control connection named at a program point is the return of a successful `accept`,
so it is not -1. -/
def Dispatcher.ValidFds (s : Dispatcher.State) : Prop :=
  match s.pc with
  | .recvmsg serverfd => serverfd ≠ -1
  | .fork serverfd _ => serverfd ≠ -1
  | _ => True

/-- The state is one the dispatcher reaches from the start of its loop. -/
def Dispatcher.Reachable (s : Dispatcher.State) : Prop :=
  ∃ (workerfd done : Int) (evs : List Event),
    s = Dispatcher.run (Dispatcher.enterLoop workerfd done []) evs

/-- The standard streams that have to be rebound: those that are not `clientfd` itself. -/
def Dispatcher.rebindTargets (clientfd : Int) : List Int :=
  [STDIN_FILENO, STDOUT_FILENO, STDERR_FILENO].filter (fun t => decide (t ≠ clientfd))

/-- The return that ends the retry loop around `dup2` when the kernel answers the successive
calls with `rets`: the first return that is not EINTR. -/
def Dispatcher.finalReturn : List Ret → Option Ret
  | [] => none
  | r :: rest => if r = .err EINTR then Dispatcher.finalReturn rest else some r

/-- The calls of `dup2(fromfd, tofd)` that are interrupted before the one that ends the loop. -/
def Dispatcher.interrupted (fromfd tofd : Int) (rets : List Ret) : List Act :=
  (rets.takeWhile (fun r => decide (r = .err EINTR))).map (Act.dup2 fromfd tofd)

/-- What the environment makes of the rebinding of `tofd`: no call when `clientfd` is `tofd`
itself or is -1, otherwise the interrupted calls followed by the call that ends the loop. -/
def Dispatcher.rebindCalls (clientfd tofd : Int) (rets : List Ret) : List Act :=
  if clientfd = tofd ∨ clientfd = -1 then []
  else
    match Dispatcher.finalReturn rets with
    | some r => Dispatcher.interrupted clientfd tofd rets ++ [Act.dup2 clientfd tofd r]
    | none => Dispatcher.interrupted clientfd tofd rets

/-- The environment lets the rebinding of `tofd` succeed: nothing to do, or `dup2` ends up
returning a descriptor. -/
def Dispatcher.RebindSucceeds (clientfd tofd : Int) (rets : List Ret) : Prop :=
  clientfd = tofd ∨ (clientfd ≠ -1 ∧ ∃ v, Dispatcher.finalReturn rets = some (.ok v))

/-- The environment makes the rebinding of `tofd` fail: `clientfd` is -1, or `dup2` ends up
returning -1 with an `errno` other than EINTR. -/
def Dispatcher.RebindFails (clientfd tofd : Int) (rets : List Ret) : Prop :=
  clientfd ≠ tofd ∧ (clientfd = -1 ∨ ∃ e, Dispatcher.finalReturn rets = some (.err e))

/-- The environment never lets the rebinding of `tofd` end: every `dup2` it answers is
interrupted. -/
def Dispatcher.RebindPending (clientfd tofd : Int) (rets : List Ret) : Prop :=
  clientfd ≠ tofd ∧ clientfd ≠ -1 ∧ Dispatcher.finalReturn rets = none

/-- How the child ends once it calls `execvp`. -/
def Dispatcher.execEnding : Option Errno → Dispatcher.ChildEnd
  | none => .replaced
  | some _ => .exit 127

/-- Descriptor table of a process: the open file each descriptor refers to, if any. -/
abbrev FdTable := Int → Option Nat

/-- Effect of one logged call on the descriptor table: a successful `dup2` makes the target
refer to the file of the source, `close` frees the descriptor, other calls change nothing. -/
def applyAct (tbl : FdTable) : Act → FdTable
  | .dup2 fromfd tofd (.ok _) => fun fd => if fd = tofd then tbl fromfd else tbl fd
  | .close fd0 => fun fd => if fd = fd0 then none else tbl fd
  | _ => tbl

/-- Effect of a log on the descriptor table. -/
def applyLog (tbl : FdTable) (log : List Act) : FdTable :=
  log.foldl applyAct tbl

/-- The log of a handler child in which all three rebindings succeed. -/
def Dispatcher.successLog (argv : List CStr) (workerfd serverfd clientfd : Int)
    (env : Dispatcher.ChildEnv) : List Act :=
  [Act.close workerfd, Act.close serverfd] ++
    Dispatcher.rebindCalls clientfd STDIN_FILENO (env.dup2 STDIN_FILENO) ++
    Dispatcher.rebindCalls clientfd STDOUT_FILENO (env.dup2 STDOUT_FILENO) ++
    Dispatcher.rebindCalls clientfd STDERR_FILENO (env.dup2 STDERR_FILENO) ++
    (if clientfd ≠ STDIN_FILENO ∧ clientfd ≠ STDOUT_FILENO ∧ clientfd ≠ STDERR_FILENO
     then [Act.close clientfd] else []) ++
    [Act.execvp (argv.get? 2) (argv.drop 2) env.execvp]

/-- Number of steps of a run at which a condition holds. -/
def countAlong {σ ε : Type} (step : σ → ε → σ) (p : σ → ε → Bool) : σ → List ε → Nat
  | _, [] => 0
  | s, e :: es => (if p s e then 1 else 0) + countAlong step p (step s e) es

/-- In a log, no `accept`, `recvmsg` or `fork` is started after a loop condition has been
evaluated. -/
def QuietAfterCheck (l : List Act) : Prop :=
  ∀ pre c post, l = pre ++ Act.check c :: post → ∀ a ∈ post, a.startsWork = false

/-- The listener is inside its loop (blocked in one of the calls of the loop). -/
def Listener.inLoop (s : Listener.State) : Bool :=
  match s.pc with
  | .exited _ => false
  | _ => true

/-- The event completes the pending call of the listener: any return of `accept`, and a
return of `sendmsg` or `close` that the `do .. while` around it does not retry. -/
def Listener.completes (s : Listener.State) (ev : Event) : Bool :=
  match s.pc, ev with
  | .accept, .ret _ => true
  | .sendmsg _, .ret r => r != .err EINTR
  | .closeConn _, .ret r => r != .err EINTR
  | _, _ => false

/-- Calls the listener can still complete once `done` is set, at most. -/
def Listener.remaining : Listener.Pc → Nat
  | .accept => 3
  | .sendmsg _ => 2
  | .closeConn _ => 1
  | .exited _ => 0

/-- The dispatcher is inside its loops (blocked in one of their calls). -/
def Dispatcher.inLoop (s : Dispatcher.State) : Bool :=
  match s.pc with
  | .accept => true
  | .recvmsg _ => true
  | .fork _ _ => true
  | _ => false

/-- The event is the return of the pending call of the dispatcher. -/
def Dispatcher.completes (s : Dispatcher.State) (ev : Event) : Bool :=
  match s.pc, ev with
  | .accept, .ret _ => true
  | .recvmsg _, .ret (.err _) => true
  | .recvmsg _, .recvd _ => true
  | .fork _ _, .ret _ => true
  | _, _ => false

/-- Calls the dispatcher can still complete once `done` is set, at most. -/
def Dispatcher.remaining : Dispatcher.Pc → Nat
  | .accept => 1
  | .recvmsg _ => 2
  | .fork _ _ => 1
  | .child _ _ => 0
  | .exited _ => 0

/-! # Theorems -/

/-! ## Shutdown flag -/

theorem handle_done_signal_latched (done signum : Int) (h : done ≠ 0) :
    handle_done_signal done signum = done := by
  simp [handle_done_signal, h]

theorem deliverSignals_latched (done : Int) (h : done ≠ 0) (sigs : List Int) :
    deliverSignals done sigs = done := by
  induction sigs with
  | nil => rfl
  | cons s rest ih =>
    simpa [deliverSignals, List.foldl_cons, handle_done_signal_latched done s h] using ih

/-- C2: the handler sets `done` to the signal number exactly when `done` is 0 and leaves it
unchanged otherwise; from `done = 0` a sequence of signals that starts with a non-zero signal
ends with `done` equal to that first signal; delivering a signal twice is the same as
delivering it once. -/
theorem C2_shutdown_flag_latched :
    (∀ done signum : Int,
      (done = 0 → handle_done_signal done signum = signum) ∧
      (done ≠ 0 → handle_done_signal done signum = done)) ∧
    (∀ (first : Int) (rest : List Int), first ≠ 0 →
      deliverSignals 0 (first :: rest) = first) ∧
    (∀ done signum : Int,
      handle_done_signal (handle_done_signal done signum) signum =
        handle_done_signal done signum) := by
  refine ⟨fun done signum => ⟨fun h => by simp [handle_done_signal, h],
    fun h => handle_done_signal_latched done signum h⟩, ?_, ?_⟩
  · intro first rest h
    have h0 : deliverSignals 0 (first :: rest) = deliverSignals first rest := by
      simp [deliverSignals, handle_done_signal]
    rw [h0]
    exact deliverSignals_latched first h rest
  · intro done signum
    unfold handle_done_signal
    split_ifs <;> simp_all

theorem C2_shutdown_flag_latched_witness :
    deliverSignals 0 [SIGINT, SIGTERM, SIGHUP] = SIGINT :=
  C2_shutdown_flag_latched.2.1 SIGINT [SIGTERM, SIGHUP] (by decide)

/-! ## wildcard -/

theorem charAt_zero_eq_NUL_iff (a : CStr) : charAt a 0 = NUL ↔ strlen a = 0 := by
  cases a with
  | nil => simp [charAt, strlen]
  | cons c cs =>
    by_cases h : c = NUL
    · simp [charAt, strlen, h, List.takeWhile_cons]
    · simp [charAt, strlen, h, List.takeWhile_cons]

theorem wildcard_some_eq_none_iff (a : CStr) :
    wildcard (some a) = none ↔
      (charAt a 0 = NUL ∨ charAt a 0 = '-' ∨ charAt a 0 = '?' ∨ charAt a 0 = '*' ∨
        charAt a 0 = ':') := by
  unfold wildcard
  by_cases h0 : charAt a 0 = NUL
  · simp [h0]
  · by_cases h1 : charAt a 0 = '-' ∨ charAt a 0 = '?' ∨ charAt a 0 = '*' ∨ charAt a 0 = ':'
    · simp [h0, h1]
    · simp [h0, h1]

/-- C10: `wildcard` returns NULL exactly when the address is NULL, is the empty string, or
starts with one of `-`, `?`, `*`, `:`; any other address is returned unchanged. -/
theorem C10_wildcard (address : Option CStr) :
    (wildcard address = none ↔
      address = none ∨
      ∃ a, address = some a ∧
        (strlen a = 0 ∨ charAt a 0 = '-' ∨ charAt a 0 = '?' ∨ charAt a 0 = '*' ∨
          charAt a 0 = ':')) ∧
    (wildcard address ≠ none → wildcard address = address) := by
  cases address with
  | none => simp [wildcard]
  | some a =>
    constructor
    · rw [wildcard_some_eq_none_iff, charAt_zero_eq_NUL_iff]
      simp
    · intro h
      simp only [wildcard] at h ⊢
      split_ifs at h ⊢ <;> simp_all

theorem C10_wildcard_witness :
    wildcard (some ['l', 'o', 'c', 'a', 'l']) = some ['l', 'o', 'c', 'a', 'l'] :=
  (C10_wildcard (some ['l', 'o', 'c', 'a', 'l'])).2 (by decide)

/-! ## Control-channel path -/

theorem toInt32_of_lt (n : Nat) (h : n < 2 ^ 31) : toInt32 n = (n : Int) := by
  have h1 : n % 2 ^ 32 = n := Nat.mod_eq_of_lt (by omega)
  unfold toInt32
  rw [h1, if_pos h]

theorem listener_checkWorkerPath_eq_none_iff (p : CStr) (h : strlen p < 2 ^ 31) :
    Listener.checkWorkerPath p = none ↔ 1 ≤ strlen p ∧ strlen p ≤ 107 := by
  simp only [Listener.checkWorkerPath, toInt32_of_lt _ h, UNIX_PATH_LEN]
  split_ifs <;> simp <;> omega

theorem dispatcher_checkWorkerPath_eq_none_iff (p : CStr) (h : strlen p < 2 ^ 31) :
    Dispatcher.checkWorkerPath p = none ↔ 1 ≤ strlen p ∧ strlen p ≤ 107 := by
  simp only [Dispatcher.checkWorkerPath, toInt32_of_lt _ h, UNIX_PATH_LEN]
  split_ifs <;> simp <;> omega

theorem checkWorkerPath_createsSocket (p : CStr) :
    (∀ a, Listener.checkWorkerPath p = some a → a.createsSocket = false) ∧
    (∀ a, Dispatcher.checkWorkerPath p = some a → a.createsSocket = false) := by
  constructor <;> intro a <;>
    simp only [Listener.checkWorkerPath, Dispatcher.checkWorkerPath] <;>
    split_ifs <;> intro h <;> simp at h <;> subst h <;> rfl

theorem installHandlers_createsSocket (f : Int → Ret) (sigs : List Int) :
    ∀ a ∈ (installHandlers f sigs).2, a.createsSocket = false := by
  induction sigs with
  | nil => simp [installHandlers]
  | cons s rest ih =>
    unfold installHandlers
    split_ifs
    · simp [Act.createsSocket]
    · intro a ha
      simp only [List.mem_cons] at ha
      rcases ha with ha | ha
      · subst ha; rfl
      · exact ih a ha

theorem installHandlers_ok (f : Int → Ret) (sigs : List Int)
    (h : ∀ s ∈ sigs, ∃ v, f s = .ok v) : (installHandlers f sigs).1 = false := by
  induction sigs with
  | nil => rfl
  | cons s rest ih =>
    obtain ⟨v, hv⟩ := h s (List.mem_cons_self _ _)
    have hrest := ih (fun t ht => h t (List.mem_cons_of_mem _ ht))
    simp [installHandlers, set_done_signal, hv, hrest]

theorem listener_step_exited (s : Listener.State) (c : Int) (h : s.pc = .exited c)
    (ev : Event) : Listener.step s ev = s := by
  simp [Listener.step, h]

theorem listener_run_exited (s : Listener.State) (c : Int) (h : s.pc = .exited c)
    (evs : List Event) : Listener.run s evs = s := by
  induction evs with
  | nil => rfl
  | cons e es ih => simpa [Listener.run, List.foldl_cons, listener_step_exited s c h e] using ih

theorem dispatcher_step_exited (s : Dispatcher.State) (c : Int) (h : s.pc = .exited c)
    (ev : Event) : Dispatcher.step s ev = s := by
  simp [Dispatcher.step, h]

theorem dispatcher_run_exited (s : Dispatcher.State) (c : Int) (h : s.pc = .exited c)
    (evs : List Event) : Dispatcher.run s evs = s := by
  induction evs with
  | nil => rfl
  | cons e es ih =>
    simpa [Dispatcher.run, List.foldl_cons, dispatcher_step_exited s c h e] using ih

theorem listener_start_bad_path (argv : List CStr) (env : Listener.SetupEnv)
    (hargc : argv.length = 4) (hbad : Listener.checkWorkerPath (argv.getD 3 []) ≠ none) :
    (Listener.start argv env).pc = .exited 1 ∧
      ∀ a ∈ (Listener.start argv env).trace, a.createsSocket = false := by
  have hcs := installHandlers_createsSocket env.sigaction [SIGINT, SIGHUP, SIGPIPE, SIGTERM]
  rcases hi : installHandlers env.sigaction [SIGINT, SIGHUP, SIGPIPE, SIGTERM] with ⟨failed, tr0⟩
  rw [hi] at hcs
  rcases hc : Listener.checkWorkerPath (argv.getD 3 []) with _ | line
  · exact absurd hc hbad
  · have hline := (checkWorkerPath_createsSocket (argv.getD 3 [])).1 line hc
    cases failed with
    | true =>
      have hst : Listener.start argv env =
          Listener.stopped 1 (tr0 ++ [Act.print "Error: Cannot install signal handlers."]) := by
        unfold Listener.start
        rw [if_neg (by omega)]
        simp only [hi, ↓reduceIte]
      rw [hst]
      refine ⟨rfl, ?_⟩
      intro a ha
      simp only [Listener.stopped, List.mem_append, List.mem_singleton] at ha
      rcases ha with ha | ha
      · exact hcs a ha
      · subst ha; rfl
    | false =>
      have hst : Listener.start argv env = Listener.stopped 1 (tr0 ++ [line]) := by
        unfold Listener.start
        rw [if_neg (by omega)]
        simp only [hi, hc, Bool.false_eq_true, ↓reduceIte]
      rw [hst]
      refine ⟨rfl, ?_⟩
      intro a ha
      simp only [Listener.stopped, List.mem_append, List.mem_singleton] at ha
      rcases ha with ha | ha
      · exact hcs a ha
      · subst ha; exact hline

theorem dispatcher_start_bad_path (argv : List CStr) (env : Dispatcher.SetupEnv)
    (hargc : 3 ≤ argv.length) (hbad : Dispatcher.checkWorkerPath (argv.getD 1 []) ≠ none) :
    (Dispatcher.start argv env).pc = .exited 1 ∧
      ∀ a ∈ (Dispatcher.start argv env).trace, a.createsSocket = false := by
  have hcs := installHandlers_createsSocket env.sigaction [SIGINT, SIGHUP, SIGPIPE, SIGTERM]
  rcases hi : installHandlers env.sigaction [SIGINT, SIGHUP, SIGPIPE, SIGTERM] with ⟨failed, tr0⟩
  rw [hi] at hcs
  have hargc1 : ¬ argv.length < 3 := by omega
  rcases hc : Dispatcher.checkWorkerPath (argv.getD 1 []) with _ | line
  · exact absurd hc hbad
  · have hline := (checkWorkerPath_createsSocket (argv.getD 1 [])).2 line hc
    cases failed with
    | true =>
      have hst : Dispatcher.start argv env =
          Dispatcher.stopped 1 (tr0 ++ [Act.print "Error: Cannot install signal handlers."]) := by
        unfold Dispatcher.start
        rw [if_neg hargc1]
        simp only [hi, ↓reduceIte]
      rw [hst]
      refine ⟨rfl, ?_⟩
      intro a ha
      simp only [Dispatcher.stopped, List.mem_append, List.mem_singleton] at ha
      rcases ha with ha | ha
      · exact hcs a ha
      · subst ha; rfl
    | false =>
      have hst : Dispatcher.start argv env = Dispatcher.stopped 1 (tr0 ++ [line]) := by
        unfold Dispatcher.start
        rw [if_neg hargc1]
        simp only [hi, hc, Bool.false_eq_true, ↓reduceIte]
      rw [hst]
      refine ⟨rfl, ?_⟩
      intro a ha
      simp only [Dispatcher.stopped, List.mem_append, List.mem_singleton] at ha
      rcases ha with ha | ha
      · exact hcs a ha
      · subst ha; exact hline

theorem listener_start_good_path (argv : List CStr) (env : Listener.SetupEnv)
    (hargc : argv.length = 4) (hsig : ∀ s, ∃ v, env.sigaction s = .ok v)
    (hgood : Listener.checkWorkerPath (argv.getD 3 []) = none) :
    Act.socketUnix env.socket ∈ (Listener.start argv env).trace := by
  have hok := installHandlers_ok env.sigaction [SIGINT, SIGHUP, SIGPIPE, SIGTERM]
    (fun s _ => hsig s)
  rcases hi : installHandlers env.sigaction [SIGINT, SIGHUP, SIGPIPE, SIGTERM] with ⟨failed, tr0⟩
  rw [hi] at hok
  simp only at hok
  subst hok
  unfold Listener.start
  rw [if_neg (by omega)]
  simp only [hi, hgood, Bool.false_eq_true, ↓reduceIte]
  rcases env.socket with v | e
  · rcases env.connect with c | e
    · simp only []
      rcases env.getaddrinfo (wildcard (argv.get? 1)) (argv.getD 2 []) with ⟨result, list⟩
      rcases Listener.bindPhase list with ⟨listenfd, failure, trb⟩
      rcases env.listen with l | e <;>
        simp [Listener.stopped, Listener.enterLoop, Listener.loopHead, Listener.shutdown,
          Listener.State.log] <;> split_ifs <;> simp
    · simp [Listener.stopped]
  · simp [Listener.stopped]

theorem dispatcher_start_good_path (argv : List CStr) (env : Dispatcher.SetupEnv)
    (hargc : 3 ≤ argv.length) (hsig : ∀ s, ∃ v, env.sigaction s = .ok v)
    (hgood : Dispatcher.checkWorkerPath (argv.getD 1 []) = none) :
    Act.socketUnix env.socket ∈ (Dispatcher.start argv env).trace := by
  have hok := installHandlers_ok env.sigaction [SIGINT, SIGHUP, SIGPIPE, SIGTERM]
    (fun s _ => hsig s)
  rcases hi : installHandlers env.sigaction [SIGINT, SIGHUP, SIGPIPE, SIGTERM] with ⟨failed, tr0⟩
  rw [hi] at hok
  simp only at hok
  subst hok
  unfold Dispatcher.start
  rw [if_neg (by omega)]
  simp only [hi, hgood, Bool.false_eq_true, ↓reduceIte]
  rcases env.socket with v | e
  · rcases env.bind with c | e
    · rcases env.listen with l | e
      · simp only [Dispatcher.enterLoop, Dispatcher.outerHead, Dispatcher.shutdown,
          Dispatcher.State.log]
        split_ifs <;> simp
      · simp [Dispatcher.stopped]
    · simp [Dispatcher.stopped]
  · simp [Dispatcher.stopped]

/-- C7: for a path `p` (shorter than 2^31 bytes, so that `strlen` fits the `int` it is stored
in) the listener, on `argv[3]`, and the dispatcher, on `argv[1]`, both pass the path check
exactly when `1 <= strlen(p) <= 107`; an empty path or one of 108 or more bytes makes either
`main` return 1 without having created a socket, and once the signal handlers are installed
the Unix socket is created exactly for the paths that pass. -/
theorem C7_worker_path_check (p : CStr) (hlen : strlen p < 2 ^ 31) :
    (Listener.checkWorkerPath p = none ↔ 1 ≤ strlen p ∧ strlen p ≤ 107) ∧
    (Dispatcher.checkWorkerPath p = none ↔ 1 ≤ strlen p ∧ strlen p ≤ 107) ∧
    (∀ (argv : List CStr) (env : Listener.SetupEnv) (evs : List Event),
      argv.length = 4 → argv.getD 3 [] = p → (strlen p = 0 ∨ 108 ≤ strlen p) →
      (Listener.main argv env evs).pc = .exited 1 ∧
        ∀ a ∈ (Listener.main argv env evs).trace, a.createsSocket = false) ∧
    (∀ (argv : List CStr) (env : Dispatcher.SetupEnv) (evs : List Event),
      3 ≤ argv.length → argv.getD 1 [] = p → (strlen p = 0 ∨ 108 ≤ strlen p) →
      (Dispatcher.main argv env evs).pc = .exited 1 ∧
        ∀ a ∈ (Dispatcher.main argv env evs).trace, a.createsSocket = false) ∧
    (∀ (argv : List CStr) (env : Listener.SetupEnv),
      argv.length = 4 → argv.getD 3 [] = p → (∀ s, ∃ v, env.sigaction s = .ok v) →
      (Act.socketUnix env.socket ∈ (Listener.start argv env).trace ↔
        1 ≤ strlen p ∧ strlen p ≤ 107)) ∧
    (∀ (argv : List CStr) (env : Dispatcher.SetupEnv),
      3 ≤ argv.length → argv.getD 1 [] = p → (∀ s, ∃ v, env.sigaction s = .ok v) →
      (Act.socketUnix env.socket ∈ (Dispatcher.start argv env).trace ↔
        1 ≤ strlen p ∧ strlen p ≤ 107)) := by
  have hL := listener_checkWorkerPath_eq_none_iff p hlen
  have hD := dispatcher_checkWorkerPath_eq_none_iff p hlen
  refine ⟨hL, hD, ?_, ?_, ?_, ?_⟩
  · intro argv env evs hargc hp hbad
    have hne : Listener.checkWorkerPath (argv.getD 3 []) ≠ none := by
      rw [hp, Ne, hL]; omega
    have h := listener_start_bad_path argv env hargc hne
    have hrun : Listener.main argv env evs = Listener.start argv env :=
      listener_run_exited _ 1 h.1 evs
    rw [hrun]
    exact h
  · intro argv env evs hargc hp hbad
    have hne : Dispatcher.checkWorkerPath (argv.getD 1 []) ≠ none := by
      rw [hp, Ne, hD]; omega
    have h := dispatcher_start_bad_path argv env hargc hne
    have hrun : Dispatcher.main argv env evs = Dispatcher.start argv env :=
      dispatcher_run_exited _ 1 h.1 evs
    rw [hrun]
    exact h
  · intro argv env hargc hp hsig
    constructor
    · intro hmem
      by_contra hbad
      have hne : Listener.checkWorkerPath (argv.getD 3 []) ≠ none := by
        rw [hp, Ne, hL]; exact hbad
      have h := (listener_start_bad_path argv env hargc hne).2 _ hmem
      simp [Act.createsSocket] at h
    · intro hgood
      exact listener_start_good_path argv env hargc hsig (by rw [hp]; exact hL.2 hgood)
  · intro argv env hargc hp hsig
    constructor
    · intro hmem
      by_contra hbad
      have hne : Dispatcher.checkWorkerPath (argv.getD 1 []) ≠ none := by
        rw [hp, Ne, hD]; exact hbad
      have h := (dispatcher_start_bad_path argv env hargc hne).2 _ hmem
      simp [Act.createsSocket] at h
    · intro hgood
      exact dispatcher_start_good_path argv env hargc hsig (by rw [hp]; exact hD.2 hgood)

theorem C7_worker_path_check_witness :
    strlen ['/', 't', 'm', 'p', '/', 'c'] < 2 ^ 31 ∧
    Listener.checkWorkerPath ['/', 't', 'm', 'p', '/', 'c'] = none ∧
    Dispatcher.checkWorkerPath ['/', 't', 'm', 'p', '/', 'c'] = none ∧
    (Listener.main [['l'], ['h'], ['9'], []] (Listener.sampleEnv []) []).pc = .exited 1 ∧
    (Dispatcher.main [['d'], [], ['c']] Dispatcher.sampleEnv []).pc = .exited 1 :=
  ⟨by decide,
   (C7_worker_path_check ['/', 't', 'm', 'p', '/', 'c'] (by decide)).1.2 (by decide),
   (C7_worker_path_check ['/', 't', 'm', 'p', '/', 'c'] (by decide)).2.1.2 (by decide),
   ((C7_worker_path_check [] (by decide)).2.2.1 [['l'], ['h'], ['9'], []]
      (Listener.sampleEnv []) [] (by decide) (by decide) (Or.inl (by decide))).1,
   ((C7_worker_path_check [] (by decide)).2.2.2.1 [['d'], [], ['c']]
      Dispatcher.sampleEnv [] (by decide) (by decide) (Or.inl (by decide))).1⟩

/-! ## Bind loop -/

theorem listener_bindLoop_failure (list : List Listener.Candidate) (listenfd failure : Int)
    (h : failure ≠ 0) : (Listener.bindLoop list listenfd failure).2.1 = failure := by
  induction list generalizing listenfd with
  | nil => rfl
  | cons c rest ih =>
    unfold Listener.bindLoop
    rcases c.socket with fd | e
    · rcases c.bind with v | e
      · rfl
      · simp only [h, ↓reduceIte]
        exact ih (-1)
    · exact ih (-1)

/-- Whatever the chain and whatever `errno` the failed `bind` calls left, the value of
`failure` after the loop is EINVAL. -/
theorem listener_bindPhase_failure (list : List Listener.Candidate) :
    (Listener.bindPhase list).2.1 = 22 :=
  listener_bindLoop_failure list (-1) 22 (by decide)

/-- When every entry before `c` fails in `socket` or in `bind` and both succeed on `c`, the
loop keeps the socket of `c` and does not look at the entries after it. -/
theorem listener_bindLoop_stops_at_first_success (pre post : List Listener.Candidate)
    (c : Listener.Candidate) (fd v : Nat) (hs : c.socket = .ok fd) (hb : c.bind = .ok v)
    (hpre : ∀ d ∈ pre, (∃ e, d.socket = .err e) ∨ (∃ e, d.bind = .err e))
    (listenfd failure : Int) :
    Listener.bindLoop (pre ++ c :: post) listenfd failure =
        Listener.bindLoop (pre ++ [c]) listenfd failure ∧
      (Listener.bindLoop (pre ++ c :: post) listenfd failure).1 = (fd : Int) := by
  induction pre generalizing listenfd failure with
  | nil => simp [Listener.bindLoop, hs, hb]
  | cons d rest ih =>
    have hrest : ∀ x ∈ rest, (∃ e, x.socket = .err e) ∨ (∃ e, x.bind = .err e) :=
      fun x hx => hpre x (List.mem_cons_of_mem _ hx)
    have hd := hpre d (List.mem_cons_self _ _)
    simp only [List.cons_append]
    rcases hds : d.socket with fd1 | e1
    · rcases hdb : d.bind with v1 | e2
      · rcases hd with ⟨e, he⟩ | ⟨e, he⟩
        · rw [hds] at he; cases he
        · rw [hdb] at he; cases he
      · simp only [Listener.bindLoop, hds, hdb]
        have h := ih hrest (-1) (if failure = 0 then (e2.val : Int) else failure)
        exact ⟨by rw [h.1], h.2⟩
    · simp only [Listener.bindLoop, hds]
      have h := ih hrest (-1) failure
      exact ⟨by rw [h.1], h.2⟩

/-- C4 (evaluation at the failing input): with a single candidate whose `bind` fails with
EADDRINUSE (98), the loop ends with `failure = EINVAL` (22), and `main` prints the bind
failure with 22 and returns 1. -/
theorem C4_bind_failure_reports_EINVAL :
    Listener.bindPhase [⟨.ok 5, .err EADDRINUSE⟩] =
      (-1, 22, [Act.socket (.ok 5), Act.bind 5 (.err EADDRINUSE), Act.close 5]) ∧
    (Listener.start Listener.sampleArgv
        (Listener.sampleEnv [⟨.ok 5, .err EADDRINUSE⟩])).pc = .exited 1 ∧
    Act.printWith "Cannot bind to %s port %s: %s." 22 ∈
      (Listener.start Listener.sampleArgv
        (Listener.sampleEnv [⟨.ok 5, .err EADDRINUSE⟩])).trace ∧
    EADDRINUSE.val ≠ 22 := by
  refine ⟨by decide, by decide, by decide, by decide⟩

/-! ## Failure of the hand-off in the listener -/

/-- C3 (counterexample): the listener has accepted descriptor 5 and is in `sendmsg`; the call
fails with EPIPE, which is not EINTR; `main` returns 0, not 1. -/
theorem C3_counterexample :
    (Listener.main Listener.sampleArgv (Listener.sampleEnv [⟨.ok 4, .ok 0⟩])
        [.ret (.ok 5)]).pc = .sendmsg 5 ∧
    EPIPE ≠ EINTR ∧
    (Listener.main Listener.sampleArgv (Listener.sampleEnv [⟨.ok 4, .ok 0⟩])
        [.ret (.ok 5), .ret (.err EPIPE)]).pc = .exited 0 ∧
    (Listener.main Listener.sampleArgv (Listener.sampleEnv [⟨.ok 4, .ok 0⟩])
        [.ret (.ok 5), .ret (.err EPIPE)]).pc ≠ .exited 1 := by
  refine ⟨by decide, by decide, by decide, by decide⟩

/-- C3 (amended): when `sendmsg` returns -1 with `errno` other than EINTR, the listener records
the cause in `done` if it was still 0 (SIGPIPE for EPIPE, -1 otherwise), closes the accepted
descriptor and its two sockets, calls `accept` no more, and `main` returns 0; nothing happens
afterwards. -/
theorem C3_sendmsg_failure_shuts_down (s : Listener.State) (connfd : Int) (e : Errno)
    (hpc : s.pc = .sendmsg connfd) (he : e ≠ EINTR) :
    (Listener.step s (.ret (.err e))).pc = .exited 0 ∧
    (Listener.step s (.ret (.err e))).done =
      (if s.done = 0 then (if e = EPIPE then SIGPIPE else -1) else s.done) ∧
    (Listener.step s (.ret (.err e))).trace = s.trace ++
      [Act.sendmsg s.workerfd (Listener.controlMessage connfd) (.err e),
       Act.printWith "Cannot pass connection to worker: %s." e.val,
       Act.close connfd, Act.close s.listenfd, Act.close s.workerfd,
       Act.print (shutdownText (Listener.step s (.ret (.err e))).done)] ∧
    (∀ a ∈ (Listener.step s (.ret (.err e))).trace.drop s.trace.length,
      a.startsWork = false) ∧
    (∀ evs, Listener.run (Listener.step s (.ret (.err e))) evs =
      Listener.step s (.ret (.err e))) := by
  have hst : Listener.step s (.ret (.err e)) =
      Listener.shutdown
        { s with
          done := if s.done = 0 then (if e = EPIPE then SIGPIPE else -1) else s.done
          conns := s.conns.erase connfd
          trace := s.trace ++
            [Act.sendmsg s.workerfd (Listener.controlMessage connfd) (.err e),
             Act.printWith "Cannot pass connection to worker: %s." e.val,
             Act.close connfd] } := by
    simp [Listener.step, hpc, he]
  have hpc1 : (Listener.step s (.ret (.err e))).pc = .exited 0 := by
    rw [hst]; rfl
  have htr : (Listener.step s (.ret (.err e))).trace = s.trace ++
      [Act.sendmsg s.workerfd (Listener.controlMessage connfd) (.err e),
       Act.printWith "Cannot pass connection to worker: %s." e.val,
       Act.close connfd, Act.close s.listenfd, Act.close s.workerfd,
       Act.print (shutdownText (Listener.step s (.ret (.err e))).done)] := by
    rw [hst]; simp [Listener.shutdown]
  refine ⟨hpc1, by rw [hst]; rfl, htr, ?_, fun evs => listener_run_exited _ 0 hpc1 evs⟩
  intro a ha
  rw [htr, List.drop_left] at ha
  simp only [List.mem_cons, List.mem_singleton, List.not_mem_nil, or_false] at ha
  rcases ha with ha | ha | ha | ha | ha | ha <;> subst ha <;> rfl

theorem C3_sendmsg_failure_shuts_down_witness :
    (Listener.step (Listener.run (Listener.enterLoop 4 3 0 []) [.ret (.ok 5)])
      (.ret (.err EPIPE))).pc = .exited 0 :=
  (C3_sendmsg_failure_shuts_down (Listener.run (Listener.enterLoop 4 3 0 []) [.ret (.ok 5)])
    5 EPIPE (by decide) (by decide)).1

/-! ## Descriptors held by the listener -/

theorem closedFds_append (a b : List Act) : closedFds (a ++ b) = closedFds a ++ closedFds b := by
  simp [closedFds, List.filterMap_append]

theorem acceptedFds_append (a b : List Act) :
    acceptedFds (a ++ b) = acceptedFds a ++ acceptedFds b := by
  simp [acceptedFds, List.filterMap_append]

theorem listener_balanced_shutdown (l w : Int) (t : Listener.State)
    (hl : t.listenfd = l) (hw : t.workerfd = w) (hc : t.conns = [])
    (ht : closedFds t.trace = acceptedFds t.trace) :
    Listener.Balanced l w (Listener.shutdown t) := by
  refine ⟨hl, hw, ?_⟩
  simp only [Listener.shutdown]
  refine ⟨hc, ?_⟩
  rw [closedFds_append, acceptedFds_append, ht, hl, hw]
  simp [closedFds, acceptedFds]

theorem listener_balanced_loopHead (l w : Int) (t : Listener.State)
    (hl : t.listenfd = l) (hw : t.workerfd = w) (hc : t.conns = [])
    (ht : closedFds t.trace = acceptedFds t.trace) :
    Listener.Balanced l w (Listener.loopHead t) := by
  unfold Listener.loopHead
  split_ifs with hd
  · refine listener_balanced_shutdown l w _ hl hw hc ?_
    simp only [Listener.State.log]
    rw [closedFds_append, acceptedFds_append, ht]
    simp [closedFds, acceptedFds]
  · refine ⟨hl, hw, ?_⟩
    simp only
    refine ⟨hc, ?_⟩
    rw [closedFds_append, acceptedFds_append, ht]
    simp [closedFds, acceptedFds]

theorem listener_balanced_enterLoop (l w done : Int) :
    Listener.Balanced l w (Listener.enterLoop l w done []) :=
  listener_balanced_loopHead l w _ rfl rfl rfl rfl

theorem listener_balanced_step (l w : Int) (s : Listener.State) (ev : Event)
    (hok : Listener.closeSucceeds s ev = true) (h : Listener.Balanced l w s) :
    Listener.Balanced l w (Listener.step s ev) := by
  obtain ⟨hl, hw, h⟩ := h
  rcases hpc : s.pc with _ | fd | fd | c
  · rw [hpc] at h
    obtain ⟨hc, ht⟩ := h
    rcases ev with n | r | m
    · simpa [Listener.step, hpc, Listener.Balanced] using ⟨hl, hw, hc, ht⟩
    · rcases r with v | e
      · simp only [Listener.step, hpc]
        refine ⟨hl, hw, ?_⟩
        simp only [hc, true_and]
        rw [acceptedFds_append, closedFds_append, ht]
        simp [closedFds, acceptedFds]
      · simp only [Listener.step, hpc]
        split_ifs
        all_goals
          refine listener_balanced_loopHead l w _ hl hw hc ?_
          simp only [Listener.State.log]
          rw [closedFds_append, acceptedFds_append, ht]
          simp [closedFds, acceptedFds]
    · simpa [Listener.step, hpc, Listener.Balanced] using ⟨hl, hw, hc, ht⟩
  · rw [hpc] at h
    obtain ⟨hc, ht⟩ := h
    rcases ev with n | r | m
    · simpa [Listener.step, hpc, Listener.Balanced] using ⟨hl, hw, hc, ht⟩
    · rcases r with v | e
      · simp only [Listener.step, hpc]
        refine ⟨hl, hw, ?_⟩
        simp only [hc, true_and]
        rw [acceptedFds_append, closedFds_append, ← ht]
        simp [closedFds, acceptedFds]
      · simp only [Listener.step, hpc]
        by_cases he : e = EINTR
        · rw [if_pos he]
          refine ⟨hl, hw, ?_⟩
          simp only [Listener.State.log, hpc, hc, true_and]
          rw [acceptedFds_append, closedFds_append, ← ht]
          simp [closedFds, acceptedFds]
        · rw [if_neg he]
          refine listener_balanced_shutdown l w _ hl hw ?_ ?_
          · simp [hc]
          · simp only
            rw [closedFds_append, acceptedFds_append, ← ht]
            simp [closedFds, acceptedFds]
    · simpa [Listener.step, hpc, Listener.Balanced] using ⟨hl, hw, hc, ht⟩
  · rw [hpc] at h
    obtain ⟨hc, ht⟩ := h
    rcases ev with n | r | m
    · simpa [Listener.step, hpc, Listener.Balanced] using ⟨hl, hw, hc, ht⟩
    · rcases r with v | e
      · simp only [Listener.step, hpc]
        refine listener_balanced_loopHead l w _ hl hw ?_ ?_
        · simp [hc]
        · simp only
          rw [closedFds_append, acceptedFds_append, ← ht]
          simp [closedFds, acceptedFds]
      · simp [Listener.closeSucceeds, hpc] at hok
    · simpa [Listener.step, hpc, Listener.Balanced] using ⟨hl, hw, hc, ht⟩
  · rw [listener_step_exited s c hpc]
    exact ⟨hl, hw, by rw [hpc]; rw [hpc] at h; exact h⟩

theorem listener_balanced_run (l w : Int) (evs : List Event) (s : Listener.State)
    (hok : along Listener.step Listener.closeSucceeds s evs = true)
    (h : Listener.Balanced l w s) : Listener.Balanced l w (Listener.run s evs) := by
  induction evs generalizing s with
  | nil => exact h
  | cons e es ih =>
    simp only [along, Bool.and_eq_true] at hok
    exact ih (Listener.step s e) hok.2 (listener_balanced_step l w s e hok.1 h)

/-- C6: with `close` succeeding, in a run of the accept loop from its start: whenever the
listener is at the end of an iteration (about to call `accept` again) or has exited,
it holds no accepted descriptor and its `close` calls are, in order, exactly one per accepted
descriptor (followed, after the exit, by the two sockets); between `accept` and the end of the
iteration it holds exactly the descriptor being handed off, which is the only accepted one
not closed yet.  The close happens after a successful and after a failed `sendmsg` alike. -/
theorem C6_no_descriptor_left (listenfd workerfd done : Int) (evs : List Event)
    (hclose : along Listener.step Listener.closeSucceeds
      (Listener.enterLoop listenfd workerfd done []) evs = true) :
    (match (Listener.run (Listener.enterLoop listenfd workerfd done []) evs).pc with
    | .accept =>
      (Listener.run (Listener.enterLoop listenfd workerfd done []) evs).conns = [] ∧
      closedFds (Listener.run (Listener.enterLoop listenfd workerfd done []) evs).trace =
        acceptedFds (Listener.run (Listener.enterLoop listenfd workerfd done []) evs).trace
    | .exited _ =>
      (Listener.run (Listener.enterLoop listenfd workerfd done []) evs).conns = [] ∧
      closedFds (Listener.run (Listener.enterLoop listenfd workerfd done []) evs).trace =
        acceptedFds (Listener.run (Listener.enterLoop listenfd workerfd done []) evs).trace
          ++ [listenfd, workerfd]
    | .sendmsg fd =>
      (Listener.run (Listener.enterLoop listenfd workerfd done []) evs).conns = [fd] ∧
      closedFds (Listener.run (Listener.enterLoop listenfd workerfd done []) evs).trace
          ++ [fd] =
        acceptedFds (Listener.run (Listener.enterLoop listenfd workerfd done []) evs).trace
    | .closeConn fd =>
      (Listener.run (Listener.enterLoop listenfd workerfd done []) evs).conns = [fd] ∧
      closedFds (Listener.run (Listener.enterLoop listenfd workerfd done []) evs).trace
          ++ [fd] =
        acceptedFds (Listener.run (Listener.enterLoop listenfd workerfd done []) evs).trace) := by
  have h := listener_balanced_run listenfd workerfd evs _ hclose
    (listener_balanced_enterLoop listenfd workerfd done)
  obtain ⟨_, _, h⟩ := h
  revert h
  cases (Listener.run (Listener.enterLoop listenfd workerfd done []) evs).pc <;> exact id

theorem C6_no_descriptor_left_witness :
    along Listener.step Listener.closeSucceeds (Listener.enterLoop 4 3 0 [])
      [.ret (.ok 5), .ret (.ok 1), .ret (.ok 0), .ret (.ok 6), .ret (.err EPIPE)] = true ∧
    (Listener.run (Listener.enterLoop 4 3 0 [])
      [.ret (.ok 5), .ret (.ok 1), .ret (.ok 0), .ret (.ok 6), .ret (.err EPIPE)]).conns = [] ∧
    closedFds (Listener.run (Listener.enterLoop 4 3 0 [])
      [.ret (.ok 5), .ret (.ok 1), .ret (.ok 0), .ret (.ok 6), .ret (.err EPIPE)]).trace
      = [5, 6, 4, 3] :=
  ⟨by decide,
   C6_no_descriptor_left 4 3 0
     [.ret (.ok 5), .ret (.ok 1), .ret (.ok 0), .ret (.ok 6), .ret (.err EPIPE)] (by decide)⟩

/-! ## Errors on the control connection in the dispatcher -/

theorem dispatcher_validFds_outerHead (t : Dispatcher.State) :
    Dispatcher.ValidFds (Dispatcher.outerHead t) := by
  unfold Dispatcher.outerHead
  split_ifs <;> simp [Dispatcher.ValidFds, Dispatcher.shutdown]

theorem dispatcher_validFds_afterInner (t : Dispatcher.State) (serverfd : Int) :
    Dispatcher.ValidFds (Dispatcher.afterInner t serverfd) :=
  dispatcher_validFds_outerHead _

theorem dispatcher_validFds_innerHead (t : Dispatcher.State) (serverfd : Int)
    (h : serverfd ≠ -1) : Dispatcher.ValidFds (Dispatcher.innerHead t serverfd) := by
  unfold Dispatcher.innerHead
  split_ifs
  · simpa [Dispatcher.ValidFds] using h
  · exact dispatcher_validFds_afterInner _ _

theorem dispatcher_validFds_step (s : Dispatcher.State) (ev : Event)
    (h : Dispatcher.ValidFds s) : Dispatcher.ValidFds (Dispatcher.step s ev) := by
  rcases hpc : s.pc with _ | sfd | ⟨sfd, cfd⟩ | ⟨sfd, cfd⟩ | c
  · rcases ev with n | r | m
    · simp [Dispatcher.step, hpc, Dispatcher.ValidFds]
    · rcases r with v | e
      · simp only [Dispatcher.step, hpc]
        exact dispatcher_validFds_innerHead _ _ (by omega)
      · simp only [Dispatcher.step, hpc]
        split_ifs <;> exact dispatcher_validFds_outerHead _
    · simpa [Dispatcher.step, hpc] using h
  · have hs : sfd ≠ -1 := by simpa [Dispatcher.ValidFds, hpc] using h
    rcases ev with n | r | m
    · simpa [Dispatcher.step, hpc, Dispatcher.ValidFds] using hs
    · rcases r with v | e
      · simpa [Dispatcher.step, hpc] using h
      · simp only [Dispatcher.step, hpc]
        split_ifs
        · exact dispatcher_validFds_innerHead _ _ hs
        · exact dispatcher_validFds_afterInner _ _
    · simp only [Dispatcher.step, hpc]
      rcases Dispatcher.CMSG_FIRSTHDR m with _ | len
      · exact dispatcher_validFds_afterInner _ _
      · simp only
        split_ifs
        · exact dispatcher_validFds_afterInner _ _
        · simpa [Dispatcher.ValidFds] using hs
  · have hs : sfd ≠ -1 := by simpa [Dispatcher.ValidFds, hpc] using h
    rcases ev with n | r | m
    · simpa [Dispatcher.step, hpc, Dispatcher.ValidFds] using hs
    · rcases r with v | e
      · rcases v with _ | pid
        · simp [Dispatcher.step, hpc, Dispatcher.ValidFds]
        · simp only [Dispatcher.step, hpc]
          exact dispatcher_validFds_innerHead _ _ hs
      · simp only [Dispatcher.step, hpc]
        exact dispatcher_validFds_afterInner _ _
    · simpa [Dispatcher.step, hpc] using h
  · simpa [Dispatcher.step, hpc] using h
  · simpa [Dispatcher.step, hpc] using h

theorem dispatcher_validFds_run (evs : List Event) (s : Dispatcher.State)
    (h : Dispatcher.ValidFds s) : Dispatcher.ValidFds (Dispatcher.run s evs) := by
  induction evs generalizing s with
  | nil => exact h
  | cons e es ih => exact ih (Dispatcher.step s e) (dispatcher_validFds_step s e h)

theorem dispatcher_validFds_of_reachable (s : Dispatcher.State) (h : Dispatcher.Reachable s) :
    Dispatcher.ValidFds s := by
  obtain ⟨w, d, evs, rfl⟩ := h
  exact dispatcher_validFds_run evs _ (dispatcher_validFds_outerHead _)

theorem forkCalls_append (a b : List Act) : forkCalls (a ++ b) = forkCalls a ++ forkCalls b := by
  simp [forkCalls, List.filterMap_append]

/-- The tail of a torn-down control connection: the connection is closed, the outer loop
condition is evaluated, and `accept` is called again if `done` is still 0. -/
theorem dispatcher_afterInner_eq (t : Dispatcher.State) (serverfd : Int) :
    Dispatcher.afterInner t serverfd =
      { t with
        pc := if t.done = 0 then .accept else .exited 0
        trace := t.trace ++
          [Act.close serverfd, Act.print "Closed connection to server.", Act.check t.done] ++
          (if t.done = 0 then [Act.callAccept t.workerfd]
           else [Act.close t.workerfd, Act.print (shutdownText t.done)]) } := by
  unfold Dispatcher.afterInner Dispatcher.outerHead
  by_cases h : t.done = 0
  · simp [h, Dispatcher.State.log]
  · simp [h, Dispatcher.State.log, Dispatcher.shutdown]

/-- C5: the dispatcher is in `recvmsg` on a control connection.  If the call returns a message
without a first control header, or with one whose length is not `CMSG_LEN(sizeof (int))`, or
fails with an error other than EINTR, the dispatcher calls no `fork`, leaves `done` unchanged,
closes that connection, evaluates the outer loop condition and, `done` being still 0, calls
`accept` again.  If the call fails with EINTR the dispatcher calls no `fork`, leaves `done`
unchanged, closes nothing, and, `done` being still 0, calls `recvmsg` again on the same
connection. -/
theorem C5_control_connection_errors (s : Dispatcher.State) (serverfd : Int)
    (hreach : Dispatcher.Reachable s) (hpc : s.pc = .recvmsg serverfd) :
    (∀ m : RecvMsg,
      (Dispatcher.CMSG_FIRSTHDR m = none ∨
        ∃ len, Dispatcher.CMSG_FIRSTHDR m = some len ∧ len ≠ CMSG_LEN sizeofInt) →
      (Dispatcher.step s (.recvd m)).done = s.done ∧
      forkCalls (Dispatcher.step s (.recvd m)).trace = forkCalls s.trace ∧
      (Dispatcher.step s (.recvd m)).trace = s.trace ++
        [Act.recvd serverfd m, Act.print "Received a bad message from server.",
         Act.close serverfd, Act.print "Closed connection to server.", Act.check s.done] ++
        (if s.done = 0 then [Act.callAccept s.workerfd]
         else [Act.close s.workerfd, Act.print (shutdownText s.done)]) ∧
      (s.done = 0 → (Dispatcher.step s (.recvd m)).pc = .accept)) ∧
    (∀ e : Errno, e ≠ EINTR →
      (Dispatcher.step s (.ret (.err e))).done = s.done ∧
      forkCalls (Dispatcher.step s (.ret (.err e))).trace = forkCalls s.trace ∧
      (Dispatcher.step s (.ret (.err e))).trace = s.trace ++
        [Act.recvmsg serverfd (.err e),
         Act.printWith "Error receiving a message from server: %s." e.val,
         Act.close serverfd, Act.print "Closed connection to server.", Act.check s.done] ++
        (if s.done = 0 then [Act.callAccept s.workerfd]
         else [Act.close s.workerfd, Act.print (shutdownText s.done)]) ∧
      (s.done = 0 → (Dispatcher.step s (.ret (.err e))).pc = .accept)) ∧
    ((Dispatcher.step s (.ret (.err EINTR))).done = s.done ∧
      forkCalls (Dispatcher.step s (.ret (.err EINTR))).trace = forkCalls s.trace ∧
      (s.done = 0 →
        (Dispatcher.step s (.ret (.err EINTR))).pc = .recvmsg serverfd ∧
        (Dispatcher.step s (.ret (.err EINTR))).trace = s.trace ++
          [Act.recvmsg serverfd (.err EINTR), Act.check 0, Act.callRecvmsg serverfd])) := by
  have hfd : serverfd ≠ -1 := by
    simpa [Dispatcher.ValidFds, hpc] using dispatcher_validFds_of_reachable s hreach
  refine ⟨?_, ?_, ?_⟩
  · intro m hm
    have hst : Dispatcher.step s (.recvd m) =
        Dispatcher.afterInner (s.log [Act.recvd serverfd m,
          Act.print "Received a bad message from server."]) serverfd := by
      rcases hm with hm | ⟨len, hm, hlen⟩
      · simp [Dispatcher.step, hpc, hm]
      · simp [Dispatcher.step, hpc, hm, hlen]
    rw [hst, dispatcher_afterInner_eq]
    simp only [Dispatcher.State.log]
    refine ⟨trivial, ?_, by simp, fun h => by simp [h]⟩
    split_ifs <;> simp [forkCalls, List.filterMap_append]
  · intro e he
    have hst : Dispatcher.step s (.ret (.err e)) =
        Dispatcher.afterInner (s.log [Act.recvmsg serverfd (.err e),
          Act.printWith "Error receiving a message from server: %s." e.val]) serverfd := by
      simp [Dispatcher.step, hpc, he]
    rw [hst, dispatcher_afterInner_eq]
    simp only [Dispatcher.State.log]
    refine ⟨trivial, ?_, by simp, fun h => by simp [h]⟩
    split_ifs <;> simp [forkCalls, List.filterMap_append]
  · have hst : Dispatcher.step s (.ret (.err EINTR)) =
        Dispatcher.innerHead (s.log [Act.recvmsg serverfd (.err EINTR)]) serverfd := by
      simp [Dispatcher.step, hpc]
    rw [hst]
    unfold Dispatcher.innerHead
    by_cases hd : s.done = 0
    · simp [Dispatcher.State.log, hd, hfd, forkCalls, List.filterMap_append]
    · rw [if_neg (by simp [Dispatcher.State.log, hd]), dispatcher_afterInner_eq]
      simp only [Dispatcher.State.log]
      refine ⟨trivial, ?_, fun h => absurd h hd⟩
      simp [hd, forkCalls, List.filterMap_append]

theorem C5_control_connection_errors_witness :
    (Dispatcher.step (Dispatcher.run (Dispatcher.enterLoop 3 0 []) [.ret (.ok 7)])
      (.recvd { received := 0, msg_controllen := 0, cmsg_len := 20, fd := 0 })).pc = .accept :=
  ((C5_control_connection_errors
      (Dispatcher.run (Dispatcher.enterLoop 3 0 []) [.ret (.ok 7)]) 7
      ⟨3, 0, [.ret (.ok 7)], rfl⟩ (by decide)).1
    { received := 0, msg_controllen := 0, cmsg_len := 20, fd := 0 }
    (Or.inl (by decide))).2.2.2 (by decide)

/-! ## The handler child -/

theorem reboundTo_append (a b : List Act) : reboundTo (a ++ b) = reboundTo a ++ reboundTo b := by
  simp [reboundTo, List.filterMap_append]

theorem dup2Loop_spec (f t : Int) (rets : List Ret) (r : Ret) (acts : List Act)
    (h : Dispatcher.dup2Loop f t rets = some (r, acts)) :
    (∀ a ∈ acts, ∃ r1, a = Act.dup2 f t r1) ∧
      (∀ v, r = .ok v → reboundTo acts = [t]) ∧ (∀ e, r = .err e → reboundTo acts = []) := by
  induction rets generalizing acts with
  | nil => simp [Dispatcher.dup2Loop] at h
  | cons x rest ih =>
    unfold Dispatcher.dup2Loop at h
    by_cases hx : x = .err EINTR
    · rw [if_pos hx] at h
      rcases hrest : Dispatcher.dup2Loop f t rest with _ | ⟨last, acts1⟩
      · simp [hrest] at h
      · simp only [hrest, Option.some.injEq, Prod.mk.injEq] at h
        obtain ⟨rfl, rfl⟩ := h
        obtain ⟨h1, h2, h3⟩ := ih acts1 hrest
        have hcons : reboundTo (Act.dup2 f t x :: acts1) = reboundTo acts1 := by
          rw [hx]; simp [reboundTo]
        refine ⟨?_, ?_, ?_⟩
        · intro a ha
          rcases List.mem_cons.1 ha with ha | ha
          · exact ⟨x, ha⟩
          · exact h1 a ha
        · intro v hv
          rw [hcons]; exact h2 v hv
        · intro e he
          rw [hcons]; exact h3 e he
    · rw [if_neg hx] at h
      simp only [Option.some.injEq, Prod.mk.injEq] at h
      obtain ⟨rfl, rfl⟩ := h
      refine ⟨?_, ?_, ?_⟩
      · intro a ha
        exact ⟨x, List.mem_singleton.1 ha⟩
      · intro v hv
        subst hv
        simp [reboundTo]
      · intro e he
        subst he
        simp [reboundTo]

theorem dup2Loop_total (f t : Int) (rets : List Ret) (h : ∃ r ∈ rets, r ≠ .err EINTR) :
    ∃ out, Dispatcher.dup2Loop f t rets = some out := by
  induction rets with
  | nil => simp at h
  | cons x rest ih =>
    unfold Dispatcher.dup2Loop
    by_cases hx : x = .err EINTR
    · rw [if_pos hx]
      obtain ⟨r, hr, hne⟩ := h
      rcases List.mem_cons.1 hr with hr | hr
      · exact absurd (hr ▸ hx) hne
      · obtain ⟨out, hout⟩ := ih ⟨r, hr, hne⟩
        rw [hout]
        exact ⟨_, rfl⟩
    · rw [if_neg hx]
      exact ⟨_, rfl⟩

theorem copy_fd_total (f t : Int) (rets : List Ret) (h : ∃ r ∈ rets, r ≠ .err EINTR) :
    ∃ out, Dispatcher.copy_fd f t rets = some out := by
  unfold Dispatcher.copy_fd
  split_ifs
  · exact ⟨_, rfl⟩
  · exact ⟨_, rfl⟩
  · obtain ⟨⟨r, acts⟩, hout⟩ := dup2Loop_total f t rets h
    rw [hout]
    rcases r with v | e <;> exact ⟨_, rfl⟩

theorem copy_fd_spec (f t : Int) (rets : List Ret) (c : Int) (acts : List Act)
    (h : Dispatcher.copy_fd f t rets = some (c, acts)) :
    (∀ a ∈ acts, ∃ r1, a = Act.dup2 f t r1) ∧
      (c = 0 → reboundTo acts = if f = t then [] else [t]) ∧
      (c ≠ 0 → reboundTo acts = [] ∧ f ≠ t) := by
  unfold Dispatcher.copy_fd at h
  by_cases hft : f = t
  · rw [if_pos hft] at h
    simp only [Option.some.injEq, Prod.mk.injEq] at h
    obtain ⟨rfl, rfl⟩ := h
    simp [hft, reboundTo]
  · rw [if_neg hft] at h
    by_cases hm : f = -1 ∨ t = -1
    · rw [if_pos hm] at h
      simp only [Option.some.injEq, Prod.mk.injEq] at h
      obtain ⟨rfl, rfl⟩ := h
      simp [hft, reboundTo, EINVAL]
    · rw [if_neg hm] at h
      rcases hl : Dispatcher.dup2Loop f t rets with _ | ⟨r, acts1⟩
      · simp [hl] at h
      · obtain ⟨h1, h2, h3⟩ := dup2Loop_spec f t rets r acts1 hl
        rcases r with v | e
        · simp only [hl, Option.some.injEq, Prod.mk.injEq] at h
          obtain ⟨rfl, rfl⟩ := h
          exact ⟨h1, fun _ => by simpa [hft] using h2 v rfl, fun hc => absurd rfl hc⟩
        · simp only [hl, Option.some.injEq, Prod.mk.injEq] at h
          obtain ⟨rfl, rfl⟩ := h
          exact ⟨h1, fun hc => by have := e.pos; omega, fun _ => ⟨h3 e rfl, hft⟩⟩

theorem rebindTargets_eq (clientfd : Int) :
    Dispatcher.rebindTargets clientfd =
      (if clientfd = 0 then [] else [0]) ++ (if clientfd = 1 then [] else [1]) ++
        (if clientfd = 2 then [] else [2]) := by
  unfold Dispatcher.rebindTargets STDIN_FILENO STDOUT_FILENO STDERR_FILENO
  by_cases h0 : clientfd = 0
  · subst h0; decide
  · by_cases h1 : clientfd = 1
    · subst h1; decide
    · by_cases h2 : clientfd = 2
      · subst h2; decide
      · have e0 : (0 : Int) ≠ clientfd := fun h => h0 h.symm
        have e1 : (1 : Int) ≠ clientfd := fun h => h1 h.symm
        have e2 : (2 : Int) ≠ clientfd := fun h => h2 h.symm
        simp [List.filter, h0, h1, h2, e0, e1, e2]

theorem handlerChild_outcome (argv : List CStr) (workerfd serverfd clientfd : Int)
    (env : Dispatcher.ChildEnv) (ending : Dispatcher.ChildEnd) (tr : List Act)
    (h : Dispatcher.handlerChild argv workerfd serverfd clientfd env = some (ending, tr)) :
    ∃ dups : List Act,
      (∀ a ∈ dups, ∃ t r, a = Act.dup2 clientfd t r) ∧
      (∃ rest, reboundTo dups ++ rest = Dispatcher.rebindTargets clientfd) ∧
      (reboundTo dups ≠ Dispatcher.rebindTargets clientfd →
        ending = .exit 126 ∧ tr = [Act.close workerfd, Act.close serverfd] ++ dups) ∧
      (reboundTo dups = Dispatcher.rebindTargets clientfd →
        tr = [Act.close workerfd, Act.close serverfd] ++ dups ++
            (if clientfd ≠ STDIN_FILENO ∧ clientfd ≠ STDOUT_FILENO ∧ clientfd ≠ STDERR_FILENO
             then [Act.close clientfd] else []) ++
            [Act.execvp (argv.get? 2) (argv.drop 2) env.execvp] ∧
        (ending = .exit 127 ↔ env.execvp ≠ none) ∧
        (ending = .replaced ↔ env.execvp = none)) := by
  unfold Dispatcher.handlerChild at h
  simp only [STDIN_FILENO, STDOUT_FILENO, STDERR_FILENO] at h ⊢
  rw [rebindTargets_eq]
  rcases h0 : Dispatcher.copy_fd clientfd 0 (env.dup2 0) with _ | ⟨c0, a0⟩
  · simp [h0] at h
  obtain ⟨d0, z0, n0⟩ := copy_fd_spec _ _ _ _ _ h0
  simp only [h0] at h
  by_cases hc0 : c0 = 0
  swap
  · rw [if_pos hc0] at h
    simp only [Option.some.injEq, Prod.mk.injEq] at h
    obtain ⟨rfl, rfl⟩ := h
    obtain ⟨r0, f0⟩ := n0 hc0
    refine ⟨a0, fun a ha => ⟨0, d0 a ha⟩, ⟨_, by rw [r0]; rfl⟩, fun _ => ⟨rfl, rfl⟩, ?_⟩
    intro hh
    rw [r0] at hh
    simp [f0] at hh
  rw [if_neg (not_not.2 hc0)] at h
  have r0 := z0 hc0
  rcases h1 : Dispatcher.copy_fd clientfd 1 (env.dup2 1) with _ | ⟨c1, a1⟩
  · simp [h1] at h
  obtain ⟨d1, z1, n1⟩ := copy_fd_spec _ _ _ _ _ h1
  simp only [h1] at h
  by_cases hc1 : c1 = 0
  swap
  · rw [if_pos hc1] at h
    simp only [Option.some.injEq, Prod.mk.injEq] at h
    obtain ⟨rfl, rfl⟩ := h
    obtain ⟨r1, f1⟩ := n1 hc1
    have hreb : reboundTo (a0 ++ a1) = if clientfd = 0 then [] else [0] := by
      rw [reboundTo_append, r0, r1, List.append_nil]
    refine ⟨a0 ++ a1, ?_, ⟨_, by rw [hreb, List.append_assoc]⟩,
      fun _ => ⟨rfl, by simp⟩, ?_⟩
    · intro a ha
      rcases List.mem_append.1 ha with ha | ha
      · exact ⟨0, d0 a ha⟩
      · exact ⟨1, d1 a ha⟩
    · intro hh
      rw [hreb] at hh
      have := congrArg List.length hh
      split_ifs at this <;> simp at this
  rw [if_neg (not_not.2 hc1)] at h
  have r1 := z1 hc1
  rcases h2 : Dispatcher.copy_fd clientfd 2 (env.dup2 2) with _ | ⟨c2, a2⟩
  · simp [h2] at h
  obtain ⟨d2, z2, n2⟩ := copy_fd_spec _ _ _ _ _ h2
  simp only [h2] at h
  have hmem : ∀ a ∈ a0 ++ a1 ++ a2, ∃ t r, a = Act.dup2 clientfd t r := by
    intro a ha
    rcases List.mem_append.1 ha with ha | ha
    · rcases List.mem_append.1 ha with ha | ha
      · exact ⟨0, d0 a ha⟩
      · exact ⟨1, d1 a ha⟩
    · exact ⟨2, d2 a ha⟩
  by_cases hc2 : c2 = 0
  swap
  · rw [if_pos hc2] at h
    simp only [Option.some.injEq, Prod.mk.injEq] at h
    obtain ⟨rfl, rfl⟩ := h
    obtain ⟨r2, f2⟩ := n2 hc2
    have hreb : reboundTo (a0 ++ a1 ++ a2) =
        (if clientfd = 0 then [] else [0]) ++ (if clientfd = 1 then [] else [1]) := by
      rw [reboundTo_append, reboundTo_append, r0, r1, r2, List.append_nil]
    refine ⟨a0 ++ a1 ++ a2, hmem, ⟨_, by rw [hreb]⟩, fun _ => ⟨rfl, by simp⟩, ?_⟩
    intro hh
    rw [hreb] at hh
    have := congrArg List.length hh
    split_ifs at this <;> simp at this
  rw [if_neg (not_not.2 hc2)] at h
  have r2 := z2 hc2
  have hreb : reboundTo (a0 ++ a1 ++ a2) =
      (if clientfd = 0 then [] else [0]) ++ (if clientfd = 1 then [] else [1]) ++
        (if clientfd = 2 then [] else [2]) := by
    rw [reboundTo_append, reboundTo_append, r0, r1, r2]
  refine ⟨a0 ++ a1 ++ a2, hmem, ⟨[], by rw [hreb, List.append_nil]⟩,
    fun hne => absurd hreb hne, fun _ => ?_⟩
  rcases hx : env.execvp with _ | e
  · simp only [hx, Option.some.injEq, Prod.mk.injEq] at h
    obtain ⟨rfl, rfl⟩ := h
    simp
  · simp only [hx, Option.some.injEq, Prod.mk.injEq] at h
    obtain ⟨rfl, rfl⟩ := h
    simp

theorem handlerChild_total (argv : List CStr) (workerfd serverfd clientfd : Int)
    (env : Dispatcher.ChildEnv) (hret : ∀ t, ∃ r ∈ env.dup2 t, r ≠ .err EINTR) :
    ∃ out, Dispatcher.handlerChild argv workerfd serverfd clientfd env = some out := by
  unfold Dispatcher.handlerChild
  obtain ⟨⟨c0, a0⟩, h0⟩ := copy_fd_total clientfd STDIN_FILENO _ (hret STDIN_FILENO)
  obtain ⟨⟨c1, a1⟩, h1⟩ := copy_fd_total clientfd STDOUT_FILENO _ (hret STDOUT_FILENO)
  obtain ⟨⟨c2, a2⟩, h2⟩ := copy_fd_total clientfd STDERR_FILENO _ (hret STDERR_FILENO)
  simp only [h0, h1, h2]
  split_ifs
  all_goals first
    | exact ⟨_, rfl⟩
    | (rcases env.execvp with _ | e <;> exact ⟨_, rfl⟩)

theorem dup2Loop_of_finalReturn (f t : Int) (rets : List Ret) (r : Ret)
    (h : Dispatcher.finalReturn rets = some r) :
    Dispatcher.dup2Loop f t rets =
      some (r, Dispatcher.interrupted f t rets ++ [Act.dup2 f t r]) := by
  induction rets with
  | nil => simp [Dispatcher.finalReturn] at h
  | cons x rest ih =>
    unfold Dispatcher.finalReturn at h
    unfold Dispatcher.dup2Loop
    by_cases hx : x = .err EINTR
    · rw [if_pos hx] at h
      rw [if_pos hx, ih h]
      simp [Dispatcher.interrupted, List.takeWhile_cons, hx]
    · rw [if_neg hx] at h
      rw [if_neg hx]
      simp only [Option.some.injEq] at h
      subst h
      simp [Dispatcher.interrupted, List.takeWhile_cons, hx]

theorem copy_fd_of_succeeds (c t : Int) (rets : List Ret) (ht : t ≠ -1)
    (h : Dispatcher.RebindSucceeds c t rets) :
    Dispatcher.copy_fd c t rets = some (0, Dispatcher.rebindCalls c t rets) := by
  unfold Dispatcher.copy_fd Dispatcher.rebindCalls
  rcases h with h | ⟨hc, v, hv⟩
  · simp [h]
  · by_cases hct : c = t
    · simp [hct]
    · rw [if_neg hct, if_neg (by simp [hc, ht]), if_neg (by simp [hct, hc]),
        dup2Loop_of_finalReturn c t rets _ hv, hv]

theorem copy_fd_of_fails (c t : Int) (rets : List Ret) (ht : t ≠ -1)
    (h : Dispatcher.RebindFails c t rets) :
    ∃ code, code ≠ 0 ∧
      Dispatcher.copy_fd c t rets = some (code, Dispatcher.rebindCalls c t rets) := by
  unfold Dispatcher.copy_fd Dispatcher.rebindCalls
  obtain ⟨hct, h⟩ := h
  rw [if_neg hct]
  by_cases hc : c = -1
  · refine ⟨(EINVAL.val : Int), by decide, ?_⟩
    simp [hc]
  · rcases h with h | ⟨e, he⟩
    · exact absurd h hc
    · refine ⟨(e.val : Int), by have := e.pos; omega, ?_⟩
      rw [if_neg (by simp [hc, ht]), if_neg (by simp [hct, hc]),
        dup2Loop_of_finalReturn c t rets _ he, he]

theorem handlerChild_of_succeeds (argv : List CStr) (workerfd serverfd clientfd : Int)
    (env : Dispatcher.ChildEnv)
    (h0 : Dispatcher.RebindSucceeds clientfd STDIN_FILENO (env.dup2 STDIN_FILENO))
    (h1 : Dispatcher.RebindSucceeds clientfd STDOUT_FILENO (env.dup2 STDOUT_FILENO))
    (h2 : Dispatcher.RebindSucceeds clientfd STDERR_FILENO (env.dup2 STDERR_FILENO)) :
    Dispatcher.handlerChild argv workerfd serverfd clientfd env =
      some (Dispatcher.execEnding env.execvp,
        Dispatcher.successLog argv workerfd serverfd clientfd env) := by
  unfold Dispatcher.handlerChild Dispatcher.successLog
  rw [copy_fd_of_succeeds _ _ _ (by decide) h0, copy_fd_of_succeeds _ _ _ (by decide) h1,
    copy_fd_of_succeeds _ _ _ (by decide) h2]
  rcases env.execvp with _ | e <;> simp [Dispatcher.execEnding]

theorem handlerChild_of_fails (argv : List CStr) (workerfd serverfd clientfd : Int)
    (env : Dispatcher.ChildEnv) :
    (Dispatcher.RebindFails clientfd STDIN_FILENO (env.dup2 STDIN_FILENO) →
      Dispatcher.handlerChild argv workerfd serverfd clientfd env =
        some (.exit 126, [Act.close workerfd, Act.close serverfd] ++
          Dispatcher.rebindCalls clientfd STDIN_FILENO (env.dup2 STDIN_FILENO))) ∧
    (Dispatcher.RebindSucceeds clientfd STDIN_FILENO (env.dup2 STDIN_FILENO) →
      Dispatcher.RebindFails clientfd STDOUT_FILENO (env.dup2 STDOUT_FILENO) →
      Dispatcher.handlerChild argv workerfd serverfd clientfd env =
        some (.exit 126, [Act.close workerfd, Act.close serverfd] ++
          Dispatcher.rebindCalls clientfd STDIN_FILENO (env.dup2 STDIN_FILENO) ++
          Dispatcher.rebindCalls clientfd STDOUT_FILENO (env.dup2 STDOUT_FILENO))) ∧
    (Dispatcher.RebindSucceeds clientfd STDIN_FILENO (env.dup2 STDIN_FILENO) →
      Dispatcher.RebindSucceeds clientfd STDOUT_FILENO (env.dup2 STDOUT_FILENO) →
      Dispatcher.RebindFails clientfd STDERR_FILENO (env.dup2 STDERR_FILENO) →
      Dispatcher.handlerChild argv workerfd serverfd clientfd env =
        some (.exit 126, [Act.close workerfd, Act.close serverfd] ++
          Dispatcher.rebindCalls clientfd STDIN_FILENO (env.dup2 STDIN_FILENO) ++
          Dispatcher.rebindCalls clientfd STDOUT_FILENO (env.dup2 STDOUT_FILENO) ++
          Dispatcher.rebindCalls clientfd STDERR_FILENO (env.dup2 STDERR_FILENO))) := by
  refine ⟨?_, ?_, ?_⟩
  · intro f0
    obtain ⟨c0, hc0, e0⟩ := copy_fd_of_fails _ _ _ (by decide) f0
    unfold Dispatcher.handlerChild
    rw [e0]
    simp [hc0]
  · intro s0 f1
    obtain ⟨c1, hc1, e1⟩ := copy_fd_of_fails _ _ _ (by decide) f1
    unfold Dispatcher.handlerChild
    rw [copy_fd_of_succeeds _ _ _ (by decide) s0, e1]
    simp [hc1]
  · intro s0 s1 f2
    obtain ⟨c2, hc2, e2⟩ := copy_fd_of_fails _ _ _ (by decide) f2
    unfold Dispatcher.handlerChild
    rw [copy_fd_of_succeeds _ _ _ (by decide) s0, copy_fd_of_succeeds _ _ _ (by decide) s1, e2]
    simp [hc2]

theorem dup2Loop_of_pending (f t : Int) (rets : List Ret)
    (h : Dispatcher.finalReturn rets = none) : Dispatcher.dup2Loop f t rets = none := by
  induction rets with
  | nil => rfl
  | cons x rest ih =>
    unfold Dispatcher.finalReturn at h
    unfold Dispatcher.dup2Loop
    by_cases hx : x = .err EINTR
    · rw [if_pos hx] at h
      rw [if_pos hx, ih h]
    · rw [if_neg hx] at h
      cases h

theorem copy_fd_of_pending (c t : Int) (rets : List Ret) (ht : t ≠ -1)
    (h : Dispatcher.RebindPending c t rets) : Dispatcher.copy_fd c t rets = none := by
  obtain ⟨hct, hc, hp⟩ := h
  unfold Dispatcher.copy_fd
  rw [if_neg hct, if_neg (by simp [hc, ht]), dup2Loop_of_pending c t rets hp]

theorem handlerChild_of_pending (argv : List CStr) (workerfd serverfd clientfd : Int)
    (env : Dispatcher.ChildEnv) :
    (Dispatcher.RebindPending clientfd STDIN_FILENO (env.dup2 STDIN_FILENO) →
      Dispatcher.handlerChild argv workerfd serverfd clientfd env = none) ∧
    (Dispatcher.RebindSucceeds clientfd STDIN_FILENO (env.dup2 STDIN_FILENO) →
      Dispatcher.RebindPending clientfd STDOUT_FILENO (env.dup2 STDOUT_FILENO) →
      Dispatcher.handlerChild argv workerfd serverfd clientfd env = none) ∧
    (Dispatcher.RebindSucceeds clientfd STDIN_FILENO (env.dup2 STDIN_FILENO) →
      Dispatcher.RebindSucceeds clientfd STDOUT_FILENO (env.dup2 STDOUT_FILENO) →
      Dispatcher.RebindPending clientfd STDERR_FILENO (env.dup2 STDERR_FILENO) →
      Dispatcher.handlerChild argv workerfd serverfd clientfd env = none) := by
  refine ⟨?_, ?_, ?_⟩
  · intro p0
    unfold Dispatcher.handlerChild
    rw [copy_fd_of_pending _ _ _ (by decide) p0]
  · intro s0 p1
    unfold Dispatcher.handlerChild
    rw [copy_fd_of_succeeds _ _ _ (by decide) s0, copy_fd_of_pending _ _ _ (by decide) p1]
    simp
  · intro s0 s1 p2
    unfold Dispatcher.handlerChild
    rw [copy_fd_of_succeeds _ _ _ (by decide) s0, copy_fd_of_succeeds _ _ _ (by decide) s1,
      copy_fd_of_pending _ _ _ (by decide) p2]
    simp

theorem rebind_cases (c t : Int) (rets : List Ret) :
    Dispatcher.RebindSucceeds c t rets ∨ Dispatcher.RebindFails c t rets ∨
      Dispatcher.RebindPending c t rets := by
  unfold Dispatcher.RebindSucceeds Dispatcher.RebindFails Dispatcher.RebindPending
  by_cases hct : c = t
  · exact Or.inl (Or.inl hct)
  · by_cases hc : c = -1
    · exact Or.inr (Or.inl ⟨hct, Or.inl hc⟩)
    · rcases hf : Dispatcher.finalReturn rets with _ | (v | e)
      · exact Or.inr (Or.inr ⟨hct, hc, rfl⟩)
      · exact Or.inl (Or.inr ⟨hc, v, rfl⟩)
      · exact Or.inr (Or.inl ⟨hct, Or.inr ⟨e, rfl⟩⟩)

theorem applyLog_append (tbl : FdTable) (a b : List Act) :
    applyLog tbl (a ++ b) = applyLog (applyLog tbl a) b := by
  simp [applyLog, List.foldl_append]

theorem applyLog_interrupted (tbl : FdTable) (f t : Int) (rets : List Ret) :
    applyLog tbl (Dispatcher.interrupted f t rets) = tbl ∧
      reboundTo (Dispatcher.interrupted f t rets) = [] := by
  induction rets with
  | nil => exact ⟨rfl, rfl⟩
  | cons x rest ih =>
    by_cases hx : x = .err EINTR
    · have hcons : Dispatcher.interrupted f t (x :: rest) =
          Act.dup2 f t (.err EINTR) :: Dispatcher.interrupted f t rest := by
        simp [Dispatcher.interrupted, List.takeWhile_cons, hx]
      rw [hcons]
      refine ⟨?_, ?_⟩
      · have h := ih.1
        simpa [applyLog, applyAct] using h
      · have h := ih.2
        simpa [reboundTo] using h
    · have hnil : Dispatcher.interrupted f t (x :: rest) = [] := by
        simp [Dispatcher.interrupted, List.takeWhile_cons, hx]
      rw [hnil]
      exact ⟨rfl, rfl⟩

theorem rebindCalls_of_succeeds (tbl : FdTable) (c t : Int) (rets : List Ret)
    (h : Dispatcher.RebindSucceeds c t rets) :
    applyLog tbl (Dispatcher.rebindCalls c t rets) =
        (fun fd => if fd = t then tbl c else tbl fd) ∧
      reboundTo (Dispatcher.rebindCalls c t rets) = (if c = t then [] else [t]) := by
  unfold Dispatcher.rebindCalls
  by_cases hct : c = t
  · subst hct
    refine ⟨?_, by simp [reboundTo]⟩
    funext fd
    by_cases hfd : fd = c
    · simp [applyLog, hfd]
    · simp [applyLog, hfd]
  · rcases h with h | ⟨hc, v, hv⟩
    · exact absurd h hct
    · rw [if_neg (by simp [hct, hc]), hv]
      obtain ⟨i1, i2⟩ := applyLog_interrupted tbl c t rets
      refine ⟨?_, ?_⟩
      · rw [applyLog_append, i1]
        simp [applyLog, applyAct]
      · rw [reboundTo_append, i2]
        simp [reboundTo, hct]

theorem successLog_effect (argv : List CStr) (workerfd serverfd clientfd : Int)
    (env : Dispatcher.ChildEnv)
    (h0 : Dispatcher.RebindSucceeds clientfd STDIN_FILENO (env.dup2 STDIN_FILENO))
    (h1 : Dispatcher.RebindSucceeds clientfd STDOUT_FILENO (env.dup2 STDOUT_FILENO))
    (h2 : Dispatcher.RebindSucceeds clientfd STDERR_FILENO (env.dup2 STDERR_FILENO)) :
    reboundTo (Dispatcher.successLog argv workerfd serverfd clientfd env) =
        Dispatcher.rebindTargets clientfd ∧
    ∀ (tbl : FdTable) (file : Nat), tbl clientfd = some file →
      clientfd ≠ workerfd → clientfd ≠ serverfd →
      applyLog tbl (Dispatcher.successLog argv workerfd serverfd clientfd env)
          STDIN_FILENO = some file ∧
      applyLog tbl (Dispatcher.successLog argv workerfd serverfd clientfd env)
          STDOUT_FILENO = some file ∧
      applyLog tbl (Dispatcher.successLog argv workerfd serverfd clientfd env)
          STDERR_FILENO = some file ∧
      (clientfd ≠ STDIN_FILENO ∧ clientfd ≠ STDOUT_FILENO ∧ clientfd ≠ STDERR_FILENO →
        applyLog tbl (Dispatcher.successLog argv workerfd serverfd clientfd env)
          clientfd = none) := by
  refine ⟨?_, ?_⟩
  · have r0 := (rebindCalls_of_succeeds (fun _ => none) _ _ _ h0).2
    have r1 := (rebindCalls_of_succeeds (fun _ => none) _ _ _ h1).2
    have r2 := (rebindCalls_of_succeeds (fun _ => none) _ _ _ h2).2
    unfold Dispatcher.successLog
    simp only [reboundTo_append]
    rw [r0, r1, r2, rebindTargets_eq]
    simp only [STDIN_FILENO, STDOUT_FILENO, STDERR_FILENO]
    split_ifs <;> simp_all [reboundTo]
  · intro tbl file hfile hw hs
    unfold Dispatcher.successLog
    simp only [applyLog_append, (rebindCalls_of_succeeds _ _ _ _ h0).1,
      (rebindCalls_of_succeeds _ _ _ _ h1).1, (rebindCalls_of_succeeds _ _ _ _ h2).1]
    simp only [STDIN_FILENO, STDOUT_FILENO, STDERR_FILENO]
    by_cases c0 : clientfd = 0
    · subst c0
      simp [applyLog, applyAct, hfile, Ne.symm hw, Ne.symm hs, hw, hs]
    · by_cases c1 : clientfd = 1
      · subst c1
        simp [applyLog, applyAct, hfile, Ne.symm hw, Ne.symm hs, hw, hs]
      · by_cases c2 : clientfd = 2
        · subst c2
          simp [applyLog, applyAct, hfile, Ne.symm hw, Ne.symm hs, hw, hs]
        · have e0 : (0 : Int) ≠ clientfd := fun h => c0 h.symm
          have e1 : (1 : Int) ≠ clientfd := fun h => c1 h.symm
          have e2 : (2 : Int) ≠ clientfd := fun h => c2 h.symm
          simp [applyLog, applyAct, hfile, hw, hs, c0, c1, c2, e0, e1, e2]

/-- C8: in the handler child with transferred descriptor `clientfd`, for every environment.
(1) `copy_fd` on a target equal to its source returns 0 and calls no `dup2`.
(2) If every `dup2` eventually returns something else than EINTR, the child reaches its end.
(3) When it does, its calls are: the two `close` calls, then `dup2(clientfd, t)` calls only,
whose successes run through the standard streams other than `clientfd` in the order 0, 1, 2.
If they stop short of all of them (a rebinding failed), the child returns 126 and nothing
follows the `dup2` calls, so the command is not executed.  If all succeed, `close(clientfd)`
follows exactly when `clientfd` is none of 0, 1, 2, then `execvp`; the child returns 127
exactly when `execvp` fails, and otherwise the command runs.
(4) If the environment lets the three rebindings succeed (each is a no-op or its `dup2` ends
up returning a descriptor), the child does reach `execvp`: its log is exactly the two `close`
calls, for each of 0, 1, 2 in that order the `dup2` calls the environment answers (none for a
no-op), `close(clientfd)` exactly when `clientfd` is none of 0, 1, 2, and `execvp` of the
command; it ends with the command running when `execvp` succeeds and with status 127 when it
fails.  The streams rebound are all the standard streams other than `clientfd`, and on every
descriptor table in which `clientfd` is open (and is not one of the two sockets closed
first) descriptors 0, 1 and 2 then all refer to the file of `clientfd`, whose own descriptor
is closed when it is none of them.
(5) If the environment makes the rebinding of 0 fail, or lets it succeed and makes that of 1
fail, or lets both succeed and makes that of 2 fail (`clientfd` is -1, or `dup2` ends up
returning an error), the child returns 126 right after the failed rebinding: no later
`dup2`, no `close(clientfd)`, no `execvp`.
(6) If instead the environment interrupts every `dup2` of the first rebinding it does not let
end, the child never gets past it.  For each target one of the three holds, so (4), (5) and
(6) fix the outcome of the child for every environment. -/
theorem C8_handler_child (argv : List CStr) (workerfd serverfd clientfd : Int)
    (env : Dispatcher.ChildEnv) :
    (∀ (t : Int) (rets : List Ret), Dispatcher.copy_fd t t rets = some (0, [])) ∧
    ((∀ t, ∃ r ∈ env.dup2 t, r ≠ .err EINTR) →
      ∃ out, Dispatcher.handlerChild argv workerfd serverfd clientfd env = some out) ∧
    (∀ (ending : Dispatcher.ChildEnd) (tr : List Act),
      Dispatcher.handlerChild argv workerfd serverfd clientfd env = some (ending, tr) →
      ∃ dups : List Act,
        (∀ a ∈ dups, ∃ t r, a = Act.dup2 clientfd t r) ∧
        (∃ rest, reboundTo dups ++ rest = Dispatcher.rebindTargets clientfd) ∧
        (reboundTo dups ≠ Dispatcher.rebindTargets clientfd →
          ending = .exit 126 ∧ tr = [Act.close workerfd, Act.close serverfd] ++ dups) ∧
        (reboundTo dups = Dispatcher.rebindTargets clientfd →
          tr = [Act.close workerfd, Act.close serverfd] ++ dups ++
              (if clientfd ≠ STDIN_FILENO ∧ clientfd ≠ STDOUT_FILENO ∧
                  clientfd ≠ STDERR_FILENO
               then [Act.close clientfd] else []) ++
              [Act.execvp (argv.get? 2) (argv.drop 2) env.execvp] ∧
          (ending = .exit 127 ↔ env.execvp ≠ none) ∧
          (ending = .replaced ↔ env.execvp = none))) ∧
    (Dispatcher.RebindSucceeds clientfd STDIN_FILENO (env.dup2 STDIN_FILENO) →
      Dispatcher.RebindSucceeds clientfd STDOUT_FILENO (env.dup2 STDOUT_FILENO) →
      Dispatcher.RebindSucceeds clientfd STDERR_FILENO (env.dup2 STDERR_FILENO) →
      Dispatcher.handlerChild argv workerfd serverfd clientfd env =
        some (Dispatcher.execEnding env.execvp,
          Dispatcher.successLog argv workerfd serverfd clientfd env) ∧
      reboundTo (Dispatcher.successLog argv workerfd serverfd clientfd env) =
        Dispatcher.rebindTargets clientfd ∧
      ∀ (tbl : FdTable) (file : Nat), tbl clientfd = some file →
        clientfd ≠ workerfd → clientfd ≠ serverfd →
        applyLog tbl (Dispatcher.successLog argv workerfd serverfd clientfd env)
            STDIN_FILENO = some file ∧
        applyLog tbl (Dispatcher.successLog argv workerfd serverfd clientfd env)
            STDOUT_FILENO = some file ∧
        applyLog tbl (Dispatcher.successLog argv workerfd serverfd clientfd env)
            STDERR_FILENO = some file ∧
        (clientfd ≠ STDIN_FILENO ∧ clientfd ≠ STDOUT_FILENO ∧ clientfd ≠ STDERR_FILENO →
          applyLog tbl (Dispatcher.successLog argv workerfd serverfd clientfd env)
            clientfd = none)) ∧
    (Dispatcher.RebindFails clientfd STDIN_FILENO (env.dup2 STDIN_FILENO) →
      Dispatcher.handlerChild argv workerfd serverfd clientfd env =
        some (.exit 126, [Act.close workerfd, Act.close serverfd] ++
          Dispatcher.rebindCalls clientfd STDIN_FILENO (env.dup2 STDIN_FILENO))) ∧
    (Dispatcher.RebindSucceeds clientfd STDIN_FILENO (env.dup2 STDIN_FILENO) →
      Dispatcher.RebindFails clientfd STDOUT_FILENO (env.dup2 STDOUT_FILENO) →
      Dispatcher.handlerChild argv workerfd serverfd clientfd env =
        some (.exit 126, [Act.close workerfd, Act.close serverfd] ++
          Dispatcher.rebindCalls clientfd STDIN_FILENO (env.dup2 STDIN_FILENO) ++
          Dispatcher.rebindCalls clientfd STDOUT_FILENO (env.dup2 STDOUT_FILENO))) ∧
    (Dispatcher.RebindSucceeds clientfd STDIN_FILENO (env.dup2 STDIN_FILENO) →
      Dispatcher.RebindSucceeds clientfd STDOUT_FILENO (env.dup2 STDOUT_FILENO) →
      Dispatcher.RebindFails clientfd STDERR_FILENO (env.dup2 STDERR_FILENO) →
      Dispatcher.handlerChild argv workerfd serverfd clientfd env =
        some (.exit 126, [Act.close workerfd, Act.close serverfd] ++
          Dispatcher.rebindCalls clientfd STDIN_FILENO (env.dup2 STDIN_FILENO) ++
          Dispatcher.rebindCalls clientfd STDOUT_FILENO (env.dup2 STDOUT_FILENO) ++
          Dispatcher.rebindCalls clientfd STDERR_FILENO (env.dup2 STDERR_FILENO))) ∧
    ((Dispatcher.RebindPending clientfd STDIN_FILENO (env.dup2 STDIN_FILENO) →
        Dispatcher.handlerChild argv workerfd serverfd clientfd env = none) ∧
      (Dispatcher.RebindSucceeds clientfd STDIN_FILENO (env.dup2 STDIN_FILENO) →
        Dispatcher.RebindPending clientfd STDOUT_FILENO (env.dup2 STDOUT_FILENO) →
        Dispatcher.handlerChild argv workerfd serverfd clientfd env = none) ∧
      (Dispatcher.RebindSucceeds clientfd STDIN_FILENO (env.dup2 STDIN_FILENO) →
        Dispatcher.RebindSucceeds clientfd STDOUT_FILENO (env.dup2 STDOUT_FILENO) →
        Dispatcher.RebindPending clientfd STDERR_FILENO (env.dup2 STDERR_FILENO) →
        Dispatcher.handlerChild argv workerfd serverfd clientfd env = none)) ∧
    (∀ t : Int, Dispatcher.RebindSucceeds clientfd t (env.dup2 t) ∨
      Dispatcher.RebindFails clientfd t (env.dup2 t) ∨
      Dispatcher.RebindPending clientfd t (env.dup2 t)) := by
  obtain ⟨f0, f1, f2⟩ := handlerChild_of_fails argv workerfd serverfd clientfd env
  exact ⟨fun t rets => by simp [Dispatcher.copy_fd],
    handlerChild_total argv workerfd serverfd clientfd env,
    handlerChild_outcome argv workerfd serverfd clientfd env,
    fun h0 h1 h2 =>
      ⟨handlerChild_of_succeeds argv workerfd serverfd clientfd env h0 h1 h2,
       successLog_effect argv workerfd serverfd clientfd env h0 h1 h2⟩,
    f0, f1, f2,
    handlerChild_of_pending argv workerfd serverfd clientfd env,
    fun t => rebind_cases clientfd t (env.dup2 t)⟩

theorem C8_handler_child_witness :
    Dispatcher.handlerChild Dispatcher.sampleArgv 3 4 5
        { dup2 := fun t => [.err EINTR, .ok t.toNat], execvp := none } =
      some (.replaced,
        [Act.close 3, Act.close 4,
         Act.dup2 5 0 (.err EINTR), Act.dup2 5 0 (.ok 0),
         Act.dup2 5 1 (.err EINTR), Act.dup2 5 1 (.ok 1),
         Act.dup2 5 2 (.err EINTR), Act.dup2 5 2 (.ok 2),
         Act.close 5,
         Act.execvp (some ['c', 'a', 't']) [['c', 'a', 't']] none]) ∧
    Dispatcher.handlerChild Dispatcher.sampleArgv 3 4 1
        { dup2 := fun t => if t = 0 then [.ok 0] else [.err EINVAL], execvp := none } =
      some (.exit 126,
        [Act.close 3, Act.close 4, Act.dup2 1 0 (.ok 0), Act.dup2 1 2 (.err EINVAL)]) :=
  ⟨((C8_handler_child Dispatcher.sampleArgv 3 4 5
      { dup2 := fun t => [.err EINTR, .ok t.toNat], execvp := none }).2.2.2.1
      (Or.inr ⟨by decide, 0, rfl⟩) (Or.inr ⟨by decide, 1, rfl⟩)
      (Or.inr ⟨by decide, 2, rfl⟩)).1,
   (C8_handler_child Dispatcher.sampleArgv 3 4 1
      { dup2 := fun t => if t = 0 then [.ok 0] else [.err EINVAL],
        execvp := none }).2.2.2.2.2.2.1
      (Or.inr ⟨by decide, 0, rfl⟩) (Or.inl rfl) ⟨by decide, Or.inr ⟨EINVAL, rfl⟩⟩⟩

/-! ## Shutdown -/

theorem quietAfterCheck_of_noWork (l : List Act) (h : ∀ a ∈ l, a.startsWork = false) :
    QuietAfterCheck l := by
  intro pre c post hl a ha
  apply h
  rw [hl]
  simp [ha]

theorem quietAfterCheck_append (d l : List Act) (hd : ∀ a ∈ d, a.isCheck = false)
    (hl : QuietAfterCheck l) : QuietAfterCheck (d ++ l) := by
  intro pre c post h a ha
  rcases List.append_eq_append_iff.1 h with ⟨a1, h1, h2⟩ | ⟨c1, h1, h2⟩
  · exact hl a1 c post h2 a ha
  · cases c1 with
    | nil =>
      simp only [List.nil_append] at h2
      exact hl [] c post (by simpa using h2.symm) a ha
    | cons x xs =>
      simp only [List.cons_append, List.cons.injEq] at h2
      have hx : Act.check c ∈ d := by
        rw [h1, h2.1]
        simp
      have := hd _ hx
      simp [Act.isCheck] at this

theorem listener_done_step (s : Listener.State) (ev : Event) (hd : s.done ≠ 0) :
    (Listener.step s ev).done ≠ 0 := by
  rcases hpc : s.pc with _ | fd | fd | c <;> rcases ev with n | r | m <;>
    try rcases r with v | e
  all_goals
    simp only [Listener.step, hpc, Listener.loopHead, Listener.shutdown, Listener.State.log,
      handle_done_signal]
    try split_ifs
    all_goals simp_all

theorem listener_step_quiet (s : Listener.State) (ev : Event) (hd : s.done ≠ 0) :
    ∃ d, (Listener.step s ev).trace = s.trace ++ d ∧ ∀ a ∈ d, a.startsWork = false := by
  rcases hpc : s.pc with _ | fd | fd | c <;> rcases ev with n | r | m <;>
    try rcases r with v | e
  all_goals
    simp only [Listener.step, hpc, Listener.loopHead, Listener.shutdown, Listener.State.log,
      hd, ne_eq, not_false_eq_true, ↓reduceIte, List.append_assoc, List.singleton_append,
      List.cons_append, List.nil_append]
    try split_ifs
    all_goals first
      | (refine ⟨_, rfl, ?_⟩; simp [Act.startsWork])
      | (refine ⟨[], ?_, ?_⟩ <;> simp)

theorem listener_run_quiet (evs : List Event) (s : Listener.State) (hd : s.done ≠ 0) :
    ∃ d, (Listener.run s evs).trace = s.trace ++ d ∧ ∀ a ∈ d, a.startsWork = false := by
  induction evs generalizing s with
  | nil => exact ⟨[], by simp [Listener.run], by simp⟩
  | cons e es ih =>
    obtain ⟨d, h1, h2⟩ := listener_step_quiet s e hd
    obtain ⟨d1, h3, h4⟩ := ih (Listener.step s e) (listener_done_step s e hd)
    refine ⟨d ++ d1, ?_, ?_⟩
    · show (Listener.run (Listener.step s e) es).trace = _
      rw [h3, h1, List.append_assoc]
    · intro a ha
      rcases List.mem_append.1 ha with ha | ha
      · exact h2 a ha
      · exact h4 a ha

theorem listener_remaining_step (s : Listener.State) (ev : Event) (hd : s.done ≠ 0) :
    Listener.remaining (Listener.step s ev).pc + (if Listener.completes s ev then 1 else 0) ≤
      Listener.remaining s.pc := by
  rcases hpc : s.pc with _ | fd | fd | c <;> rcases ev with n | r | m <;>
    try rcases r with v | e
  all_goals
    simp only [Listener.step, hpc, Listener.loopHead, Listener.shutdown, Listener.State.log,
      hd, ne_eq, not_false_eq_true, ↓reduceIte, Listener.completes]
    try split_ifs
    all_goals simp_all [Listener.remaining]

theorem listener_remaining_run (evs : List Event) (s : Listener.State) (hd : s.done ≠ 0) :
    Listener.remaining (Listener.run s evs).pc +
        countAlong Listener.step Listener.completes s evs ≤
      Listener.remaining s.pc := by
  induction evs generalizing s with
  | nil => simp [Listener.run, countAlong]
  | cons e es ih =>
    have h1 := listener_remaining_step s e hd
    have h2 := ih (Listener.step s e) (listener_done_step s e hd)
    simp only [countAlong]
    show Listener.remaining (Listener.run (Listener.step s e) es).pc + _ ≤ _
    omega

theorem listener_exit_code_step (s : Listener.State) (ev : Event)
    (h : ∀ c, s.pc = .exited c → c = 0) : ∀ c, (Listener.step s ev).pc = .exited c → c = 0 := by
  rcases hpc : s.pc with _ | fd | fd | c <;> rcases ev with n | r | m <;>
    try rcases r with v | e
  all_goals
    simp only [Listener.step, hpc, Listener.loopHead, Listener.shutdown, Listener.State.log]
    try split_ifs
    all_goals simp_all

theorem listener_exit_code_run (evs : List Event) (s : Listener.State)
    (h : ∀ c, s.pc = .exited c → c = 0) : ∀ c, (Listener.run s evs).pc = .exited c → c = 0 := by
  induction evs generalizing s with
  | nil => exact h
  | cons e es ih => exact ih (Listener.step s e) (listener_exit_code_step s e h)

theorem dispatcher_step_terminal (s : Dispatcher.State) (h : Dispatcher.inLoop s = false)
    (ev : Event) : Dispatcher.step s ev = s := by
  rcases hpc : s.pc with _ | sfd | ⟨sfd, cfd⟩ | ⟨sfd, cfd⟩ | c <;>
    simp [Dispatcher.inLoop, hpc] at h <;> simp [Dispatcher.step, hpc]

theorem dispatcher_run_terminal (s : Dispatcher.State) (h : Dispatcher.inLoop s = false)
    (evs : List Event) : Dispatcher.run s evs = s := by
  induction evs with
  | nil => rfl
  | cons e es ih =>
    simpa [Dispatcher.run, List.foldl_cons, dispatcher_step_terminal s h e] using ih

theorem dispatcher_done_step (s : Dispatcher.State) (ev : Event) (hd : s.done ≠ 0) :
    (Dispatcher.step s ev).done ≠ 0 := by
  rcases hpc : s.pc with _ | sfd | ⟨sfd, cfd⟩ | ⟨sfd, cfd⟩ | c <;>
    rcases ev with n | ((_ | pid) | e) | m
  all_goals
    simp only [Dispatcher.step, hpc, Dispatcher.innerHead, Dispatcher.afterInner,
      Dispatcher.outerHead, Dispatcher.shutdown, Dispatcher.State.log, handle_done_signal]
    repeat' split
    all_goals simp_all

theorem dispatcher_step_shutdown (s : Dispatcher.State) (ev : Event) (hd : s.done ≠ 0) :
    ∃ d, (Dispatcher.step s ev).trace = s.trace ++ d ∧
      (∀ a ∈ d, a.startsWork = true → ∃ fd, a = Act.callFork fd) ∧
      ((∀ a ∈ d, a.isCheck = false) ∨
        (Dispatcher.inLoop (Dispatcher.step s ev) = false ∧ ∀ a ∈ d, a.startsWork = false)) := by
  rcases hpc : s.pc with _ | sfd | ⟨sfd, cfd⟩ | ⟨sfd, cfd⟩ | c <;>
    rcases ev with n | ((_ | pid) | e) | m
  all_goals
    simp only [Dispatcher.step, hpc, Dispatcher.innerHead, Dispatcher.afterInner,
      Dispatcher.outerHead, Dispatcher.shutdown, Dispatcher.State.log,
      hd, ne_eq, not_false_eq_true, ↓reduceIte, false_and, List.append_assoc,
      List.singleton_append, List.cons_append, List.nil_append]
    repeat' split
    all_goals first
      | (refine ⟨_, rfl, ?_, ?_⟩ <;> simp [Act.startsWork, Act.isCheck, Dispatcher.inLoop])
      | (refine ⟨[], ?_, ?_, ?_⟩ <;> simp)

theorem dispatcher_run_shutdown (evs : List Event) (s : Dispatcher.State) (hd : s.done ≠ 0) :
    ∃ d, (Dispatcher.run s evs).trace = s.trace ++ d ∧
      (∀ a ∈ d, a.startsWork = true → ∃ fd, a = Act.callFork fd) ∧ QuietAfterCheck d := by
  induction evs generalizing s with
  | nil =>
    exact ⟨[], by simp [Dispatcher.run], by simp, quietAfterCheck_of_noWork [] (by simp)⟩
  | cons e es ih =>
    obtain ⟨d, h1, h2, h3⟩ := dispatcher_step_shutdown s e hd
    rcases h3 with h3 | ⟨hterm, h3⟩
    · obtain ⟨d1, h4, h5, h6⟩ := ih (Dispatcher.step s e) (dispatcher_done_step s e hd)
      refine ⟨d ++ d1, ?_, ?_, quietAfterCheck_append d d1 h3 h6⟩
      · show (Dispatcher.run (Dispatcher.step s e) es).trace = _
        rw [h4, h1, List.append_assoc]
      · intro a ha
        rcases List.mem_append.1 ha with ha | ha
        · exact h2 a ha
        · exact h5 a ha
    · refine ⟨d, ?_, h2, quietAfterCheck_of_noWork d h3⟩
      show (Dispatcher.run (Dispatcher.step s e) es).trace = _
      rw [dispatcher_run_terminal _ hterm, h1]

theorem dispatcher_remaining_step (s : Dispatcher.State) (ev : Event) (hd : s.done ≠ 0) :
    Dispatcher.remaining (Dispatcher.step s ev).pc +
        (if Dispatcher.completes s ev then 1 else 0) ≤
      Dispatcher.remaining s.pc := by
  rcases hpc : s.pc with _ | sfd | ⟨sfd, cfd⟩ | ⟨sfd, cfd⟩ | c <;>
    rcases ev with n | ((_ | pid) | e) | m
  all_goals
    simp only [Dispatcher.step, hpc, Dispatcher.innerHead, Dispatcher.afterInner,
      Dispatcher.outerHead, Dispatcher.shutdown, Dispatcher.State.log,
      hd, ne_eq, not_false_eq_true, ↓reduceIte, false_and, Dispatcher.completes]
    repeat' split
    all_goals simp_all [Dispatcher.remaining]

theorem dispatcher_remaining_run (evs : List Event) (s : Dispatcher.State) (hd : s.done ≠ 0) :
    Dispatcher.remaining (Dispatcher.run s evs).pc +
        countAlong Dispatcher.step Dispatcher.completes s evs ≤
      Dispatcher.remaining s.pc := by
  induction evs generalizing s with
  | nil => simp [Dispatcher.run, countAlong]
  | cons e es ih =>
    have h1 := dispatcher_remaining_step s e hd
    have h2 := ih (Dispatcher.step s e) (dispatcher_done_step s e hd)
    simp only [countAlong]
    show Dispatcher.remaining (Dispatcher.run (Dispatcher.step s e) es).pc + _ ≤ _
    omega

theorem dispatcher_exit_code_step (s : Dispatcher.State) (ev : Event)
    (h : ∀ c, s.pc = .exited c → c = 0) :
    ∀ c, (Dispatcher.step s ev).pc = .exited c → c = 0 := by
  rcases hpc : s.pc with _ | sfd | ⟨sfd, cfd⟩ | ⟨sfd, cfd⟩ | c <;>
    rcases ev with n | ((_ | pid) | e) | m
  all_goals
    simp only [Dispatcher.step, hpc, Dispatcher.innerHead, Dispatcher.afterInner,
      Dispatcher.outerHead, Dispatcher.shutdown, Dispatcher.State.log]
    repeat' split
    all_goals simp_all

theorem dispatcher_exit_code_run (evs : List Event) (s : Dispatcher.State)
    (h : ∀ c, s.pc = .exited c → c = 0) :
    ∀ c, (Dispatcher.run s evs).pc = .exited c → c = 0 := by
  induction evs generalizing s with
  | nil => exact h
  | cons e es ih => exact ih (Dispatcher.step s e) (dispatcher_exit_code_step s e h)

/-- C9: in either program, delivering SIGINT, SIGHUP or SIGTERM to a process inside its loop
leaves `done` non-zero; and from any state inside the loop with `done` non-zero, whatever
happens next (returns, further signals):
the listener starts no `accept` at all; the dispatcher starts no `accept` and no `recvmsg`,
and nothing (no `fork` either) once a loop condition has been evaluated; an interrupted
`accept` or `recvmsg` leads to the loop condition and so to the exit; as soon as the pending
calls have completed (at most three in the listener: the accept, the hand-off and the close in
flight; at most two in the dispatcher: the receive and the fork in flight) the process has left
its loops and `main` has returned 0 (in the dispatcher: unless `fork` returned 0 and this
process is the handler child); no other exit status is possible.  The number of calls still
to complete is `remaining`: 3, 2, 1 at `accept`, `sendmsg`, `close` in the listener and
1, 2, 1 at `accept`, `recvmsg`, `fork` in the dispatcher. -/
theorem C9_shutdown_stops_work :
    (∀ (s0 : Listener.State) (sig : Int), sig ∈ [SIGINT, SIGHUP, SIGTERM] →
      Listener.inLoop s0 = true →
      (Listener.step s0 (.signal sig)).done ≠ 0 ∧
      (Listener.step s0 (.signal sig)).pc = s0.pc) ∧
    (∀ (s : Listener.State) (evs : List Event), s.done ≠ 0 → Listener.inLoop s = true →
      (∀ a ∈ (Listener.run s evs).trace.drop s.trace.length, a.startsWork = false) ∧
      (Listener.step s (.ret (.err EINTR))).pc = (if s.pc = .accept then .exited 0 else s.pc) ∧
      (Listener.remaining s.pc ≤ countAlong Listener.step Listener.completes s evs →
        (Listener.run s evs).pc = .exited 0) ∧
      (∀ c, (Listener.run s evs).pc = .exited c → c = 0)) ∧
    (∀ (s0 : Dispatcher.State) (sig : Int), sig ∈ [SIGINT, SIGHUP, SIGTERM] →
      Dispatcher.inLoop s0 = true →
      (Dispatcher.step s0 (.signal sig)).done ≠ 0 ∧
      (Dispatcher.step s0 (.signal sig)).pc = s0.pc) ∧
    (∀ (s : Dispatcher.State) (evs : List Event), s.done ≠ 0 → Dispatcher.inLoop s = true →
      (∀ a ∈ (Dispatcher.run s evs).trace.drop s.trace.length,
        a.startsWork = true → ∃ fd, a = Act.callFork fd) ∧
      QuietAfterCheck ((Dispatcher.run s evs).trace.drop s.trace.length) ∧
      ((∀ sfd cfd, s.pc ≠ .fork sfd cfd) →
        (Dispatcher.step s (.ret (.err EINTR))).pc = .exited 0) ∧
      (Dispatcher.remaining s.pc ≤ countAlong Dispatcher.step Dispatcher.completes s evs →
        (Dispatcher.run s evs).pc = .exited 0 ∨
          ∃ sfd cfd, (Dispatcher.run s evs).pc = .child sfd cfd) ∧
      (∀ c, (Dispatcher.run s evs).pc = .exited c → c = 0)) := by
  refine ⟨?_, ?_, ?_, ?_⟩
  · intro s0 sig hsig hloop
    have hsig0 : sig ≠ 0 := by
      simp only [List.mem_cons, List.mem_singleton, List.not_mem_nil, or_false] at hsig
      rcases hsig with h | h | h <;> subst h <;> decide
    rcases hpc : s0.pc with _ | fd | fd | c
    · simp only [Listener.step, hpc, handle_done_signal]
      split_ifs <;> simp_all
    · simp only [Listener.step, hpc, handle_done_signal]
      split_ifs <;> simp_all
    · simp only [Listener.step, hpc, handle_done_signal]
      split_ifs <;> simp_all
    · simp [Listener.inLoop, hpc] at hloop
  · intro s evs hd hloop
    have hcode0 : ∀ c, s.pc = .exited c → c = 0 := by
      intro c hc
      simp [Listener.inLoop, hc] at hloop
    have hcode := listener_exit_code_run evs s hcode0
    refine ⟨?_, ?_, ?_, hcode⟩
    · obtain ⟨d, h1, h2⟩ := listener_run_quiet evs s hd
      rw [h1, List.drop_left]
      exact h2
    · rcases hpc : s.pc with _ | fd | fd | c
      · simp [Listener.step, hpc, Listener.loopHead, Listener.shutdown, Listener.State.log, hd]
      · simp [Listener.step, hpc, Listener.State.log]
      · simp [Listener.step, hpc, Listener.State.log]
      · simp [Listener.inLoop, hpc] at hloop
    · intro hcount
      have hrem := listener_remaining_run evs s hd
      have h0 : Listener.remaining (Listener.run s evs).pc = 0 := by omega
      rcases hpc : (Listener.run s evs).pc with _ | fd | fd | c
      · simp [hpc, Listener.remaining] at h0
      · simp [hpc, Listener.remaining] at h0
      · simp [hpc, Listener.remaining] at h0
      · rw [hcode c hpc]
  · intro s0 sig hsig hloop
    have hsig0 : sig ≠ 0 := by
      simp only [List.mem_cons, List.mem_singleton, List.not_mem_nil, or_false] at hsig
      rcases hsig with h | h | h <;> subst h <;> decide
    rcases hpc : s0.pc with _ | sfd | ⟨sfd, cfd⟩ | ⟨sfd, cfd⟩ | c
    · simp only [Dispatcher.step, hpc, handle_done_signal]
      split_ifs <;> simp_all
    · simp only [Dispatcher.step, hpc, handle_done_signal]
      split_ifs <;> simp_all
    · simp only [Dispatcher.step, hpc, handle_done_signal]
      split_ifs <;> simp_all
    · simp [Dispatcher.inLoop, hpc] at hloop
    · simp [Dispatcher.inLoop, hpc] at hloop
  · intro s evs hd hloop
    have hcode0 : ∀ c, s.pc = .exited c → c = 0 := by
      intro c hc
      simp [Dispatcher.inLoop, hc] at hloop
    have hcode := dispatcher_exit_code_run evs s hcode0
    obtain ⟨d, h1, h2, h3⟩ := dispatcher_run_shutdown evs s hd
    refine ⟨?_, ?_, ?_, ?_, hcode⟩
    · rw [h1, List.drop_left]
      exact h2
    · rw [h1, List.drop_left]
      exact h3
    · intro hnf
      rcases hpc : s.pc with _ | sfd | ⟨sfd, cfd⟩ | ⟨sfd, cfd⟩ | c
      · simp [Dispatcher.step, hpc, Dispatcher.outerHead, Dispatcher.shutdown,
          Dispatcher.State.log, hd]
      · simp [Dispatcher.step, hpc, Dispatcher.innerHead, Dispatcher.afterInner,
          Dispatcher.outerHead, Dispatcher.shutdown, Dispatcher.State.log, hd]
      · exact absurd hpc (hnf sfd cfd)
      · simp [Dispatcher.inLoop, hpc] at hloop
      · simp [Dispatcher.inLoop, hpc] at hloop
    · intro hcount
      have hrem := dispatcher_remaining_run evs s hd
      have h0 : Dispatcher.remaining (Dispatcher.run s evs).pc = 0 := by omega
      rcases hpc : (Dispatcher.run s evs).pc with _ | sfd | ⟨sfd, cfd⟩ | ⟨sfd, cfd⟩ | c
      · simp [hpc, Dispatcher.remaining] at h0
      · simp [hpc, Dispatcher.remaining] at h0
      · simp [hpc, Dispatcher.remaining] at h0
      · exact Or.inr ⟨sfd, cfd, rfl⟩
      · rw [hcode c hpc]
        exact Or.inl rfl

theorem C9_shutdown_stops_work_witness :
    (Listener.step (Listener.enterLoop 4 3 0 []) (.signal SIGINT)).done ≠ 0 ∧
    (Listener.run (Listener.step (Listener.enterLoop 4 3 0 []) (.signal SIGINT))
      [.ret (.ok 5), .ret (.ok 1), .ret (.ok 0)]).pc = .exited 0 ∧
    (Dispatcher.step (Dispatcher.enterLoop 3 0 []) (.signal SIGTERM)).done ≠ 0 ∧
    ((Dispatcher.run
        (Dispatcher.step (Dispatcher.run (Dispatcher.enterLoop 3 0 []) [.ret (.ok 5)])
          (.signal SIGTERM))
        [.recvd ⟨1, 20, 20, 6⟩, .ret (.ok 100)]).pc = .exited 0 ∨
      ∃ sfd cfd, (Dispatcher.run
        (Dispatcher.step (Dispatcher.run (Dispatcher.enterLoop 3 0 []) [.ret (.ok 5)])
          (.signal SIGTERM))
        [.recvd ⟨1, 20, 20, 6⟩, .ret (.ok 100)]).pc = .child sfd cfd) :=
  ⟨(C9_shutdown_stops_work.1 (Listener.enterLoop 4 3 0 []) SIGINT (by decide) (by decide)).1,
   (C9_shutdown_stops_work.2.1
      (Listener.step (Listener.enterLoop 4 3 0 []) (.signal SIGINT))
      [.ret (.ok 5), .ret (.ok 1), .ret (.ok 0)] (by decide) (by decide)).2.2.1 (by decide),
   (C9_shutdown_stops_work.2.2.1 (Dispatcher.enterLoop 3 0 []) SIGTERM
      (by decide) (by decide)).1,
   (C9_shutdown_stops_work.2.2.2
      (Dispatcher.step (Dispatcher.run (Dispatcher.enterLoop 3 0 []) [.ret (.ok 5)])
        (.signal SIGTERM))
      [.recvd ⟨1, 20, 20, 6⟩, .ret (.ok 100)] (by decide) (by decide)).2.2.2.1 (by decide)⟩

/-! ## Hand-off in order -/

theorem sentMsgs_append (a b : List Act) : sentMsgs (a ++ b) = sentMsgs a ++ sentMsgs b := by
  simp [sentMsgs, List.filterMap_append]

theorem recvdMsgs_append (a b : List Act) : recvdMsgs (a ++ b) = recvdMsgs a ++ recvdMsgs b := by
  simp [recvdMsgs, List.filterMap_append]

theorem forkedFds_append (a b : List Act) : forkedFds (a ++ b) = forkedFds a ++ forkedFds b := by
  simp [forkedFds, List.filterMap_append]

theorem listener_step_sent (s : Listener.State) (ev : Event) :
    sentMsgs (Listener.step s ev).trace = sentMsgs s.trace ++ System.emitted s ev := by
  rcases hpc : s.pc with _ | fd | fd | c <;> rcases ev with n | r | m <;>
    try rcases r with v | e
  all_goals
    simp only [Listener.step, hpc, Listener.loopHead, Listener.shutdown, Listener.State.log,
      System.emitted]
    repeat' split
    all_goals simp [sentMsgs, List.filterMap_append]

theorem listener_step_accounted (s : Listener.State) (ev : Event)
    (hh : System.healthyListener s ev = true)
    (h : acceptedFds s.trace =
      (sentMsgs s.trace).map (fun m => m.fd) ++ System.pendingSend s.pc) :
    acceptedFds (Listener.step s ev).trace =
      (sentMsgs (Listener.step s ev).trace).map (fun m => m.fd) ++
        System.pendingSend (Listener.step s ev).pc := by
  rw [listener_step_sent]
  rcases hpc : s.pc with _ | fd | fd | c <;> rcases ev with n | r | m <;>
    try rcases r with v | e
  all_goals
    simp only [hpc, System.pendingSend, System.healthyListener] at h hh
    simp only [Listener.step, hpc, Listener.loopHead, Listener.shutdown, Listener.State.log,
      System.emitted, System.pendingSend]
    repeat' split
    all_goals
      simp_all [acceptedFds, List.filterMap_append, Listener.controlMessage]

theorem dispatcher_step_accounted (s : Dispatcher.State) (ev : Event)
    (hh : System.healthyDispatcher s ev = true) (hev : ∀ m, ev ≠ .recvd m) :
    recvdMsgs (Dispatcher.step s ev).trace = recvdMsgs s.trace ∧
      forkedFds (Dispatcher.step s ev).trace ++ System.pendingFork (Dispatcher.step s ev).pc =
        forkedFds s.trace ++ System.pendingFork s.pc := by
  rcases hpc : s.pc with _ | sfd | ⟨sfd, cfd⟩ | ⟨sfd, cfd⟩ | c <;>
    rcases ev with n | ((_ | pid) | e) | m
  all_goals
    simp only [hpc, System.healthyDispatcher] at hh
    simp only [Dispatcher.step, hpc, Dispatcher.innerHead, Dispatcher.afterInner,
      Dispatcher.outerHead, Dispatcher.shutdown, Dispatcher.State.log, System.pendingFork]
    repeat' split
    all_goals
      simp_all [recvdMsgs, forkedFds, List.filterMap_append]

theorem transfer_wellFormed (kappa : Int → Int) (fd : Int) :
    Dispatcher.CMSG_FIRSTHDR (System.transfer kappa (Listener.controlMessage fd)) =
      some (CMSG_LEN sizeofInt) := by
  simp [Dispatcher.CMSG_FIRSTHDR, System.transfer, Listener.controlMessage, CMSG_LEN]

theorem dispatcher_step_deliver (kappa : Int → Int) (s : Dispatcher.State) (sfd fd : Int)
    (hpc : s.pc = .recvmsg sfd) :
    recvdMsgs (Dispatcher.step s
        (.recvd (System.transfer kappa (Listener.controlMessage fd)))).trace =
      recvdMsgs s.trace ++ [System.transfer kappa (Listener.controlMessage fd)] ∧
    forkedFds (Dispatcher.step s
        (.recvd (System.transfer kappa (Listener.controlMessage fd)))).trace =
      forkedFds s.trace ∧
    System.pendingFork (Dispatcher.step s
        (.recvd (System.transfer kappa (Listener.controlMessage fd)))).pc = [kappa fd] := by
  simp only [Dispatcher.step, hpc, transfer_wellFormed]
  simp [recvdMsgs, forkedFds, List.filterMap_append, System.pendingFork, System.transfer,
    Listener.controlMessage]

theorem accounted_init (kappa : Int → Int) (listenfd workerfd dispatcherfd : Int) :
    System.Accounted kappa (System.init listenfd workerfd dispatcherfd) := by
  simp [System.Accounted, System.init, Listener.enterLoop, Listener.loopHead,
    Dispatcher.enterLoop, Dispatcher.outerHead, acceptedFds, sentMsgs, recvdMsgs, forkedFds,
    System.pendingSend, System.pendingFork]

theorem system_step_deliver_idle (kappa : Int → Int) (S : System.Sys)
    (h : S.chan = [] ∨ ∀ sfd, S.dis.pc ≠ .recvmsg sfd) :
    System.step kappa S .deliver = S := by
  simp only [System.step]
  split
  · rename_i m rest sfd hch hpc
    rcases h with h | h
    · rw [h] at hch; cases hch
    · exact absurd hpc (h sfd)
  · rfl

theorem system_step_deliver_recv (kappa : Int → Int) (S : System.Sys) (m : ControlMessage)
    (rest : List ControlMessage) (sfd : Int) (hch : S.chan = m :: rest)
    (hpc : S.dis.pc = .recvmsg sfd) :
    System.step kappa S .deliver =
      { S with
        chan := rest
        dis := Dispatcher.step S.dis (.recvd (System.transfer kappa m)) } := by
  simp only [System.step, hch, hpc]

theorem accounted_step (kappa : Int → Int) (S : System.Sys) (ev : System.SysEvent)
    (hh : System.healthyStep S ev = true) (h : System.Accounted kappa S) :
    System.Accounted kappa (System.step kappa S ev) := by
  obtain ⟨ha, hb, hc, he, hd⟩ := h
  rcases ev with e | e | _
  · -- a step of the listener
    have hsent := listener_step_sent S.lis e
    have hem : ∀ m ∈ System.emitted S.lis e, m = Listener.controlMessage m.fd := by
      intro m hm
      unfold System.emitted at hm
      split at hm
      · simp only [List.mem_singleton] at hm
        subst hm
        rfl
      · simp at hm
    simp only [System.step]
    refine ⟨listener_step_accounted S.lis e hh ha, ?_, ?_, ?_, hd⟩
    · intro m hm
      rw [hsent] at hm
      rcases List.mem_append.1 hm with hm | hm
      · exact hb m hm
      · exact hem m hm
    · simp only [hsent, List.drop_left, List.map_append, hc, List.append_assoc]
    · intro m hm
      simp only [hsent, List.drop_left] at hm
      rcases List.mem_append.1 hm with hm | hm
      · exact he m hm
      · exact hem m hm
  · -- a step of the dispatcher other than a successful receive
    rcases e with n | r | m
    · have h1 := dispatcher_step_accounted S.dis (.signal n) hh (by simp)
      refine ⟨ha, hb, ?_, he, ?_⟩
      · show _ = recvdMsgs (Dispatcher.step S.dis (.signal n)).trace ++ _
        rw [h1.1]; exact hc
      · show List.map _ (recvdMsgs (Dispatcher.step S.dis (.signal n)).trace) =
          forkedFds (Dispatcher.step S.dis (.signal n)).trace ++
            System.pendingFork (Dispatcher.step S.dis (.signal n)).pc
        rw [h1.1, h1.2]; exact hd
    · have h1 := dispatcher_step_accounted S.dis (.ret r) hh (by simp)
      refine ⟨ha, hb, ?_, he, ?_⟩
      · show _ = recvdMsgs (Dispatcher.step S.dis (.ret r)).trace ++ _
        rw [h1.1]; exact hc
      · show List.map _ (recvdMsgs (Dispatcher.step S.dis (.ret r)).trace) =
          forkedFds (Dispatcher.step S.dis (.ret r)).trace ++
            System.pendingFork (Dispatcher.step S.dis (.ret r)).pc
        rw [h1.1, h1.2]; exact hd
    · exact ⟨ha, hb, hc, he, hd⟩
  · -- the oldest message is delivered
    rcases hch : S.chan with _ | ⟨m, rest⟩
    · rw [system_step_deliver_idle kappa S (Or.inl hch)]
      exact ⟨ha, hb, hc, he, hd⟩
    · by_cases hpc : ∃ sfd, S.dis.pc = .recvmsg sfd
      · obtain ⟨sfd, hpc⟩ := hpc
        rw [system_step_deliver_recv kappa S m rest sfd hch hpc]
        have hm : m = Listener.controlMessage m.fd := he m (by rw [hch]; simp)
        have hdel := dispatcher_step_deliver kappa S.dis sfd m.fd hpc
        rw [← hm] at hdel
        obtain ⟨h1, h2, h3⟩ := hdel
        have hpend : System.pendingFork S.dis.pc = [] := by rw [hpc]; rfl
        refine ⟨ha, hb, ?_, ?_, ?_⟩
        · show _ = recvdMsgs (Dispatcher.step S.dis
            (.recvd (System.transfer kappa m))).trace ++ List.map _ rest
          rw [h1, hc, hch, List.map_cons, List.append_assoc, List.singleton_append]
        · intro x hx
          exact he x (by rw [hch]; exact List.mem_cons_of_mem _ hx)
        · show List.map _ (recvdMsgs (Dispatcher.step S.dis
              (.recvd (System.transfer kappa m))).trace) =
            forkedFds (Dispatcher.step S.dis (.recvd (System.transfer kappa m))).trace ++
              System.pendingFork (Dispatcher.step S.dis
                (.recvd (System.transfer kappa m))).pc
          rw [h1, h2, h3, List.map_append, hd, hpend, List.append_nil]
          rfl
      · rw [system_step_deliver_idle kappa S (Or.inr (fun sfd h => hpc ⟨sfd, h⟩))]
        exact ⟨ha, hb, hc, he, hd⟩

theorem accounted_run (kappa : Int → Int) (evs : List System.SysEvent) (S : System.Sys)
    (hh : along (System.step kappa) System.healthyStep S evs = true)
    (h : System.Accounted kappa S) : System.Accounted kappa (System.run kappa S evs) := by
  induction evs generalizing S with
  | nil => exact h
  | cons e es ih =>
    simp only [along, Bool.and_eq_true] at hh
    exact ih (System.step kappa S e) hh.2 (accounted_step kappa S e hh.1 h)

theorem map_fd_transfer (kappa : Int → Int) (l : List ControlMessage) :
    (l.map (System.transfer kappa)).map (fun m => m.fd) = l.map (fun m => kappa m.fd) := by
  simp [List.map_map, Function.comp_def, System.transfer]

theorem map_controlMessage_fd (l : List ControlMessage)
    (h : ∀ m ∈ l, m = Listener.controlMessage m.fd) :
    (l.map (fun m => m.fd)).map Listener.controlMessage = l := by
  induction l with
  | nil => rfl
  | cons x xs ih =>
    simp only [List.map_cons, List.cons.injEq]
    exact ⟨(h x (List.mem_cons_self _ _)).symm,
      ih (fun m hm => h m (List.mem_cons_of_mem _ hm))⟩

/-- C1: the listener and the dispatcher joined by the control channel, run from the start of
their loops under any interleaving in which no shutdown is signalled and no `sendmsg`,
`recvmsg` or `fork` fails.  At every moment:
the descriptors of the messages sent are, in order, the descriptors accepted (but for the one
whose `sendmsg` is pending); every message sent is the message built for its one descriptor;
the descriptors forked for by the dispatcher, followed by the one whose `fork` is pending, by
those of the messages still in the channel and by the one whose `sendmsg` is pending, are in
order the accepted descriptors (under the numbers `kappa` they have in the dispatcher).
Hence, when nothing is in flight and N connections have been accepted: exactly N messages
were sent, one per accepted descriptor in the order accepted, and exactly N handlers were
forked, one per message, in that order. -/
theorem C1_fifo_handoff (kappa : Int → Int) (listenfd workerfd dispatcherfd : Int)
    (evs : List System.SysEvent)
    (hhealthy : along (System.step kappa) System.healthyStep
      (System.init listenfd workerfd dispatcherfd) evs = true) :
    (sentMsgs (System.outcome kappa listenfd workerfd dispatcherfd evs).lis.trace).map
        (fun m => m.fd) ++
      System.pendingSend (System.outcome kappa listenfd workerfd dispatcherfd evs).lis.pc =
      acceptedFds (System.outcome kappa listenfd workerfd dispatcherfd evs).lis.trace ∧
    (∀ m ∈ sentMsgs (System.outcome kappa listenfd workerfd dispatcherfd evs).lis.trace,
      m = Listener.controlMessage m.fd) ∧
    forkedFds (System.outcome kappa listenfd workerfd dispatcherfd evs).dis.trace ++
      System.pendingFork (System.outcome kappa listenfd workerfd dispatcherfd evs).dis.pc ++
      (System.outcome kappa listenfd workerfd dispatcherfd evs).chan.map
        (fun m => kappa m.fd) ++
      (System.pendingSend
        (System.outcome kappa listenfd workerfd dispatcherfd evs).lis.pc).map kappa =
      (acceptedFds (System.outcome kappa listenfd workerfd dispatcherfd evs).lis.trace).map
        kappa ∧
    (System.quiescent (System.outcome kappa listenfd workerfd dispatcherfd evs) →
      sentMsgs (System.outcome kappa listenfd workerfd dispatcherfd evs).lis.trace =
        (acceptedFds (System.outcome kappa listenfd workerfd dispatcherfd evs).lis.trace).map
          Listener.controlMessage ∧
      forkedFds (System.outcome kappa listenfd workerfd dispatcherfd evs).dis.trace =
        (acceptedFds (System.outcome kappa listenfd workerfd dispatcherfd evs).lis.trace).map
          kappa ∧
      (sentMsgs (System.outcome kappa listenfd workerfd dispatcherfd evs).lis.trace).length =
        (acceptedFds
          (System.outcome kappa listenfd workerfd dispatcherfd evs).lis.trace).length ∧
      (forkedFds (System.outcome kappa listenfd workerfd dispatcherfd evs).dis.trace).length =
        (acceptedFds
          (System.outcome kappa listenfd workerfd dispatcherfd evs).lis.trace).length) := by
  have hacc : System.Accounted kappa (System.outcome kappa listenfd workerfd dispatcherfd evs) :=
    accounted_run kappa evs _ hhealthy (accounted_init kappa listenfd workerfd dispatcherfd)
  generalize System.outcome kappa listenfd workerfd dispatcherfd evs = S at hacc ⊢
  obtain ⟨ha, hb, hc, _, hd⟩ := hacc
  have hfifo : forkedFds S.dis.trace ++ System.pendingFork S.dis.pc ++
      S.chan.map (fun m => kappa m.fd) ++ (System.pendingSend S.lis.pc).map kappa =
      (acceptedFds S.lis.trace).map kappa := by
    have h1 := congrArg (List.map (fun m : RecvMsg => m.fd)) hc
    rw [map_fd_transfer, List.map_append, map_fd_transfer, hd] at h1
    rw [ha, List.map_append, List.map_map, ← h1]
    rfl
  refine ⟨ha.symm, hb, hfifo, ?_⟩
  rintro ⟨hq1, hq2, hq3⟩
  rw [hq1, List.append_nil] at ha
  rw [hq1, hq2, hq3] at hfifo
  simp only [List.map_nil, List.append_nil] at hfifo
  have hsent : sentMsgs S.lis.trace = (acceptedFds S.lis.trace).map Listener.controlMessage := by
    rw [ha, map_controlMessage_fd _ hb]
  refine ⟨hsent, hfifo, ?_, ?_⟩
  · rw [hsent, List.length_map]
  · rw [hfifo, List.length_map]

theorem C1_fifo_handoff_witness :
    along (System.step (fun fd => fd + 10)) System.healthyStep (System.init 4 3 3)
      [.dispatcher (.ret (.ok 5)), .listener (.ret (.ok 7)), .listener (.ret (.ok 1)),
       .listener (.ret (.ok 0)), .listener (.ret (.ok 8)), .deliver, .listener (.ret (.ok 1)),
       .dispatcher (.ret (.ok 100)), .listener (.ret (.ok 0)), .deliver,
       .dispatcher (.ret (.ok 101))] = true ∧
    System.quiescent (System.outcome (fun fd => fd + 10) 4 3 3
      [.dispatcher (.ret (.ok 5)), .listener (.ret (.ok 7)), .listener (.ret (.ok 1)),
       .listener (.ret (.ok 0)), .listener (.ret (.ok 8)), .deliver, .listener (.ret (.ok 1)),
       .dispatcher (.ret (.ok 100)), .listener (.ret (.ok 0)), .deliver,
       .dispatcher (.ret (.ok 101))]) ∧
    forkedFds (System.outcome (fun fd => fd + 10) 4 3 3
      [.dispatcher (.ret (.ok 5)), .listener (.ret (.ok 7)), .listener (.ret (.ok 1)),
       .listener (.ret (.ok 0)), .listener (.ret (.ok 8)), .deliver, .listener (.ret (.ok 1)),
       .dispatcher (.ret (.ok 100)), .listener (.ret (.ok 0)), .deliver,
       .dispatcher (.ret (.ok 101))]).dis.trace = [17, 18] :=
  ⟨by decide, ⟨by decide, by decide, by decide⟩,
   ((C1_fifo_handoff (fun fd => fd + 10) 4 3 3
      [.dispatcher (.ret (.ok 5)), .listener (.ret (.ok 7)), .listener (.ret (.ok 1)),
       .listener (.ret (.ok 0)), .listener (.ret (.ok 8)), .deliver, .listener (.ret (.ok 1)),
       .dispatcher (.ret (.ok 100)), .listener (.ret (.ok 0)), .deliver,
       .dispatcher (.ret (.ok 101))] (by decide)).2.2.2
      ⟨by decide, by decide, by decide⟩).2.1⟩

/-! ### Every sequence of connections can be handed off -/

theorem along_append {σ ε : Type} (step : σ → ε → σ) (ok : σ → ε → Bool) (s : σ)
    (a b : List ε) :
    along step ok s (a ++ b) = (along step ok s a && along step ok (a.foldl step s) b) := by
  induction a generalizing s with
  | nil => simp [along]
  | cons x xs ih => simp [along, ih, Bool.and_assoc]

theorem system_round (kappa : Int → Int) (serverfd fd pid : Nat) (S : System.Sys)
    (h : System.Idle serverfd S) :
    along (System.step kappa) System.healthyStep S (System.round fd pid) = true ∧
    System.Idle serverfd (System.run kappa S (System.round fd pid)) ∧
    acceptedFds (System.run kappa S (System.round fd pid)).lis.trace =
      acceptedFds S.lis.trace ++ [(fd : Int)] := by
  obtain ⟨⟨lpc, ldone, lfd, wfd, conns, ltr⟩, chan, ⟨dpc, ddone, dwfd, dtr⟩⟩ := S
  obtain ⟨h1, h2, h3, h4, h5⟩ := h
  simp only at h1 h2 h3 h4 h5
  subst h1 h2 h3 h4 h5
  have hs : ((serverfd : Int) = -1) = False := by
    simp only [eq_iff_iff, iff_false]; omega
  refine ⟨?_, ?_, ?_⟩
  · simp [System.round, along, System.healthyStep, System.healthyListener,
      System.healthyDispatcher, System.step, Listener.step, Listener.loopHead,
      Listener.State.log, Dispatcher.step, Dispatcher.innerHead, sentMsgs,
      List.filterMap_append, System.transfer, Listener.controlMessage,
      Dispatcher.CMSG_FIRSTHDR, CMSG_LEN, hs]
  · simp [System.round, System.run, System.Idle, System.step, Listener.step,
      Listener.loopHead, Listener.State.log, Dispatcher.step, Dispatcher.innerHead,
      Dispatcher.State.log, sentMsgs, List.filterMap_append, System.transfer,
      Listener.controlMessage, Dispatcher.CMSG_FIRSTHDR, CMSG_LEN, hs]
  · simp [System.round, System.run, System.step, Listener.step,
      Listener.loopHead, Listener.State.log, Dispatcher.step, Dispatcher.innerHead,
      Dispatcher.State.log, sentMsgs, acceptedFds, List.filterMap_append, System.transfer,
      Listener.controlMessage, Dispatcher.CMSG_FIRSTHDR, CMSG_LEN, hs]

theorem system_rounds (kappa : Int → Int) (serverfd : Nat) (fds : List Nat) (S : System.Sys)
    (h : System.Idle serverfd S) :
    along (System.step kappa) System.healthyStep S (System.rounds fds) = true ∧
    System.Idle serverfd (System.run kappa S (System.rounds fds)) ∧
    acceptedFds (System.run kappa S (System.rounds fds)).lis.trace =
      acceptedFds S.lis.trace ++ fds.map (fun fd => (fd : Int)) := by
  induction fds generalizing S with
  | nil => exact ⟨rfl, h, by simp [System.rounds, System.run]⟩
  | cons fd rest ih =>
    obtain ⟨r1, r2, r3⟩ := system_round kappa serverfd fd fd S h
    obtain ⟨i1, i2, i3⟩ := ih (System.run kappa S (System.round fd fd)) r2
    have hrun : System.run kappa S (System.rounds (fd :: rest)) =
        System.run kappa (System.run kappa S (System.round fd fd)) (System.rounds rest) := by
      simp [System.rounds, System.run, List.foldl_append]
    refine ⟨?_, ?_, ?_⟩
    · rw [System.rounds, along_append, r1, Bool.true_and]
      exact i1
    · rw [hrun]; exact i2
    · rw [hrun, i3, r3]
      simp

/-- Every finite sequence of accepted descriptors is handed off by some run of the system in
which nothing fails: the run ends with nothing in flight and with exactly that sequence
accepted. -/
theorem every_sequence_is_handed_off (kappa : Int → Int) (listenfd workerfd dispatcherfd : Int)
    (serverfd : Nat) (fds : List Nat) :
    along (System.step kappa) System.healthyStep
      (System.init listenfd workerfd dispatcherfd) (System.schedule serverfd fds) = true ∧
    System.quiescent
      (System.outcome kappa listenfd workerfd dispatcherfd (System.schedule serverfd fds)) ∧
    acceptedFds
      (System.outcome kappa listenfd workerfd dispatcherfd
        (System.schedule serverfd fds)).lis.trace = fds.map (fun fd => (fd : Int)) := by
  have hs : ((serverfd : Int) = -1) = False := by
    simp only [eq_iff_iff, iff_false]; omega
  have hidle : System.Idle serverfd
      (System.step kappa (System.init listenfd workerfd dispatcherfd)
        (.dispatcher (.ret (.ok serverfd)))) := by
    simp [System.Idle, System.step, System.init, Listener.enterLoop, Listener.loopHead,
      Dispatcher.enterLoop, Dispatcher.outerHead, Dispatcher.step, Dispatcher.innerHead,
      Dispatcher.State.log, hs]
  have hacc : acceptedFds
      (System.step kappa (System.init listenfd workerfd dispatcherfd)
        (.dispatcher (.ret (.ok serverfd)))).lis.trace = [] := by
    simp [System.step, System.init, Listener.enterLoop, Listener.loopHead, acceptedFds]
  obtain ⟨r1, r2, r3⟩ := system_rounds kappa serverfd fds _ hidle
  have hout : System.outcome kappa listenfd workerfd dispatcherfd
      (System.schedule serverfd fds) =
      System.run kappa (System.step kappa (System.init listenfd workerfd dispatcherfd)
        (.dispatcher (.ret (.ok serverfd)))) (System.rounds fds) := rfl
  refine ⟨?_, ?_, ?_⟩
  · simp only [System.schedule, along, Bool.and_eq_true]
    refine ⟨?_, r1⟩
    simp [System.healthyStep, System.healthyDispatcher, System.init, Dispatcher.enterLoop,
      Dispatcher.outerHead]
  · rw [hout]
    obtain ⟨q1, _, q3, _, q5⟩ := r2
    exact ⟨by rw [q1]; rfl, q5, by rw [q3]; rfl⟩
  · rw [hout, r3, hacc, List.nil_append]

end Handoff
